import Mathlib

/-!
# Cart synchronisation: a shallow embedding of the cart logic

The development embeds the cart logic of `src/screens/ProductDetailScreen.js`
(`increaseQuantity`, `decreaseQuantity`, `addToCart`) and of
`src/screens/CartScreen.js` (`loadCart`, `onRefresh`, `handleRemove`,
`removeFromCart`, `updateQuantity`, `getTotalPrice`, `getTotalItems`) together
with the part of the realtime database they talk to (`get`, `set`, `update`,
`remove` on the path `carts/<uid>/<id>`, `onValue` on `carts/<uid>`).

Modelling conventions.

* A JavaScript number is a double. A number that holds a quantity is an
  `Int`, a price is a `ℚ`, and either stands for the double nearest to it:
  `jsAdd`, `jsSub`, `jsAddNumber` and `jsMulNumber` round their operands and
  their result to the nearest double (ties to even, 53 significant bits,
  exponent unbounded). `Option Int` is used where the JavaScript value may be
  `NaN` (written `none`): `undefined + n` is `NaN`.
* A line item is a JavaScript object restricted to the seven wire fields; a
  field that is `none` is a property the object does not have.
* A product is the route parameter of the detail screen, an object parsed
  from JSON that nothing validates: each of the four fields copied besides
  `id` holds a value, `null`, or is absent (`undefined`). `set` drops a
  property that is `null` and throws on one that is `undefined`.
* `new Date().toISOString()` is the reading of a clock, a `Nat`.
* An `async` function is cut at each `await`: what runs before the first
  `await` is the `_begin` function, what runs when the awaited repository call
  settles is an `_onGet` / `_onSet` / `_settled` function. The suspended
  invocation is a `Task` that carries the variables captured by the closure.
  A repository call is issued when its task is created; the calls of the
  client are answered in the order in which they were issued, and a call
  reads or changes the store when it is answered.
* Everything an invocation does to the outside (repository calls, alerts,
  navigation, console output) is reported as a list of `Effect`s.
-/

namespace CartSync

/-! ## Database nodes -/

/-- A database node (or JavaScript object) with string keys, as an association list. -/
abbrev Node (α : Type) := List (String × α)

/-- The child stored under key `k`, if any. -/
def nodeGet {α : Type} : Node α → String → Option α
  | [], _ => none
  | (k', v) :: rest, k => if k' = k then some v else nodeGet rest k

/-- Write child `v` under key `k`, replacing a child already stored there. -/
def nodePut {α : Type} (k : String) (v : α) : Node α → Node α
  | [] => [(k, v)]
  | (k', v') :: rest => if k' = k then (k, v) :: rest else (k', v') :: nodePut k v rest

/-- Delete every child stored under key `k`. -/
def nodeDel {α : Type} (k : String) : Node α → Node α
  | [] => []
  | (k', v') :: rest => if k' = k then nodeDel k rest else (k', v') :: nodeDel k rest

/-! ## JavaScript numbers -/

/-- The number of doublings of `n` after which `d * 2 ^ 52 ≤ n`. -/
def scaleUp : Nat → Nat → Nat → Nat
  | 0, _, _ => 0
  | fuel + 1, n, d => if d * 2 ^ 52 ≤ n then 0 else scaleUp fuel (2 * n) d + 1

/-- The number of doublings of `d` after which `n < d * 2 ^ 53`. -/
def scaleDown : Nat → Nat → Nat → Nat
  | 0, _, _ => 0
  | fuel + 1, n, d => if n < d * 2 ^ 53 then 0 else scaleDown fuel n (2 * d) + 1

/-- The integer nearest to `n / d`, the even one of the two when `n / d` is
half way between them. -/
def roundHalfEven (n d : Nat) : Nat :=
  if 2 * (n % d) < d then n / d
  else if d < 2 * (n % d) then n / d + 1
  else if (n / d) % 2 = 0 then n / d else n / d + 1

/-- A binary floating-point magnitude: `mantissa * 2 ^ down / 2 ^ up`. -/
structure Rounded where
  mantissa : Nat
  up : Nat
  down : Nat
deriving DecidableEq

/-- The double nearest to `n / d` (round to nearest, ties to even, 53
significant bits): `n / d` is scaled by a power of two into the range from
`2 ^ 52` to `2 ^ 53` and rounded to an integer there. The exponent is not
bounded: overflow and subnormal numbers are outside the model. -/
def roundCore (n d : Nat) : Rounded :=
  if n = 0 then { mantissa := 0, up := 0, down := 0 }
  else
    { mantissa := roundHalfEven (n * 2 ^ scaleUp (d + 53) n d)
        (d * 2 ^ scaleDown n (n * 2 ^ scaleUp (d + 53) n d) d)
      up := scaleUp (d + 53) n d
      down := scaleDown n (n * 2 ^ scaleUp (d + 53) n d) d }

/-- The double nearest to an integer; it is an integer again. -/
def roundInt (x : Int) : Int :=
  x.sign * (((roundCore x.natAbs 1).mantissa * 2 ^ (roundCore x.natAbs 1).down
              / 2 ^ (roundCore x.natAbs 1).up : Nat) : Int)

/-- The double nearest to a rational number. -/
def roundDouble (x : ℚ) : ℚ :=
  (x.num.sign : ℚ) * (((roundCore x.num.natAbs x.den).mantissa
      * 2 ^ (roundCore x.num.natAbs x.den).down : Nat) : ℚ)
    / ((2 ^ (roundCore x.num.natAbs x.den).up : Nat) : ℚ)

/-- JavaScript `a + b` on numbers that hold integers. A number of the model
stands for the double nearest to it, so the operands are rounded as well as
the sum. -/
def jsAdd (a b : Int) : Int := roundInt (roundInt a + roundInt b)

/-- JavaScript `a - b` on numbers that hold integers. -/
def jsSub (a b : Int) : Int := roundInt (roundInt a - roundInt b)

/-- JavaScript `a + b` on numbers. -/
def jsAddNumber (a b : ℚ) : ℚ := roundDouble (roundDouble a + roundDouble b)

/-- JavaScript `price * quantity`. -/
def jsMulNumber (price : ℚ) (quantity : Int) : ℚ :=
  roundDouble (roundDouble price * (roundInt quantity : ℚ))

/-! ## Data model -/

/-- A property of a JavaScript object as the code reads it: a value, `null`, or
`undefined` (the object has no such property). -/
inductive Field (α : Type) where
  | value (a : α)
  | null
  | undefined
deriving DecidableEq

/-- What the database stores for a property passed to `set`: a `null` property
is not stored. -/
def Field.toOption {α : Type} : Field α → Option α
  | .value a => some a
  | _ => none

/-- Whether a property reads as `undefined`. -/
def Field.isUndefined {α : Type} : Field α → Bool
  | .undefined => true
  | _ => false

/-- A catalog product as received in `route.params` (the fields the cart uses).
It is JSON of the catalog service that nothing validates: apart from `id`, by
which the product list keys its rows (`item.id.toString()`), every field may
be `null` or missing. -/
structure Product where
  id : Nat
  title : Field String
  price : Field ℚ
  image : Field String
  category : Field String
deriving DecidableEq

/-- Whether a field that `addToCart` copies reads as `undefined`. -/
def Product.hasUndefined (product : Product) : Bool :=
  product.title.isUndefined || product.price.isUndefined || product.image.isUndefined
    || product.category.isUndefined

/-- A cart line item as a JavaScript object: the seven wire fields, each of
which may be missing. -/
structure Item where
  id : Option Nat
  title : Option String
  price : Option ℚ
  image : Option String
  category : Option String
  quantity : Option Int
  addedAt : Option Nat
deriving DecidableEq

/-- The path segment a template literal makes of an id: the decimal digits of a
number, the text `undefined` for a missing id. -/
def pathKey : Option Nat → String
  | some n => toString n
  | none => "undefined"

/-- The remote store: for each user id the node `carts/<uid>`. -/
abbrev Store := String → Node Item

/-- The result of `get(ref(db, carts/uid/key))`: the record, or `none` when
`snapshot.exists()` is false. -/
def dbGet (s : Store) (uid key : String) : Option Item :=
  nodeGet (s uid) key

/-- The effect of `set(ref(db, carts/uid/key), value)`: the record is replaced. -/
def dbSet (s : Store) (uid key : String) (value : Item) : Store :=
  fun u => if u = uid then nodePut key value (s u) else s u

/-- The effect of `remove(ref(db, carts/uid/key))`. -/
def dbRemove (s : Store) (uid key : String) : Store :=
  fun u => if u = uid then nodeDel key (s u) else s u

/-- The record that results from writing the properties of `patch` over `old`:
a property of `patch` wins, a property only `old` has is kept. -/
def Item.merge (patch old : Item) : Item :=
  { id := patch.id.or old.id
    title := patch.title.or old.title
    price := patch.price.or old.price
    image := patch.image.or old.image
    category := patch.category.or old.category
    quantity := patch.quantity.or old.quantity
    addedAt := patch.addedAt.or old.addedAt }

/-- The effect of `update(ref(db, carts/uid/key), patch)`: the properties of
`patch` are written, the other properties of the stored record are kept. -/
def dbUpdate (s : Store) (uid key : String) (patch : Item) : Store :=
  match dbGet s uid key with
  | some old => dbSet s uid key (Item.merge patch old)
  | none => dbSet s uid key patch

/-! ## Effects and suspended invocations -/

/-- What an invocation does to the outside world. -/
inductive Effect
  /-- Call `get(ref(db, carts/uid/key))`. -/
  | get (uid key : String)
  /-- Call `set(ref(db, carts/uid/key), value)`. -/
  | set (uid key : String) (value : Item)
  /-- Call `update(ref(db, carts/uid/key), patch)`. -/
  | update (uid key : String) (patch : Item)
  /-- Call `remove(ref(db, carts/uid/key))`. -/
  | remove (uid key : String)
  /-- Show `Alert.alert("Login Required", ...)`. -/
  | alertLoginRequired
  /-- Show `Alert.alert("Success!", ...)` for an add of `quantity` items. -/
  | alertSuccess (quantity : Int)
  /-- Show `Alert.alert("Error", message)`. -/
  | alertError (message : String)
  /-- Show the `Remove Item` dialog of `handleRemove` with its Cancel and Remove buttons. -/
  | alertRemoveItem (item : Item)
  /-- Call `navigation.navigate(screen)`. -/
  | navigate (screen : String)
  /-- Call `console.error(label, error)`. -/
  | consoleError (label : String)
  /-- Call `onValue(ref(db, carts/uid), ...)`: a listener on the user's cart is opened. -/
  | onValue (uid : String)
  /-- Show `Alert.alert("Please login", ...)`. -/
  | alertPleaseLogin
deriving DecidableEq

/-- Whether an effect is a call to the repository. -/
def Effect.isRepoCall : Effect → Bool
  | .get _ _ => true
  | .set _ _ _ => true
  | .update _ _ _ => true
  | .remove _ _ => true
  | .onValue _ => true
  | _ => false

/-- Whether an effect is a write to the repository. -/
def Effect.isWrite : Effect → Bool
  | .set _ _ _ => true
  | .update _ _ _ => true
  | .remove _ _ => true
  | _ => false

/-- Whether an effect reports an error to the user or to the console. -/
def Effect.isError : Effect → Bool
  | .alertLoginRequired => true
  | .alertPleaseLogin => true
  | .alertError _ => true
  | .consoleError _ => true
  | _ => false

/-- Whether an effect is the `Success!` alert of `addToCart`. -/
def Effect.isSuccess : Effect → Bool
  | .alertSuccess _ => true
  | _ => false

/-- An `async` invocation suspended at an `await`, with the variables its
closure captured. -/
inductive Task
  /-- Invocation of `addToCart` waiting for `get(itemRef)`. -/
  | addAwaitGet (uid : String) (product : Product) (quantity : Int)
  /-- Invocation of `addToCart` waiting for `set(itemRef, record)`. -/
  | addAwaitSet (uid : String) (product : Product) (quantity : Int) (record : Item)
  /-- Invocation of `updateQuantity` waiting for `update(itemRef, patch)`. -/
  | updateAwait (uid : String) (item : Item) (patch : Item)
  /-- Invocation of `removeFromCart` waiting for `remove(itemRef)`. -/
  | removeAwait (uid : String) (item : Item)
deriving DecidableEq

/-- The product key a suspended invocation works on. -/
def Task.key : Task → String
  | .addAwaitGet _ product _ => pathKey (some product.id)
  | .addAwaitSet _ product _ _ => pathKey (some product.id)
  | .updateAwait _ item _ => pathKey item.id
  | .removeAwait _ item => pathKey item.id

/-! ## Product detail screen -/

/-- The state of `ProductDetailScreen`: the `product` of `route.params` and the
two `useState` cells. -/
structure DetailState where
  product : Product
  quantity : Int
  addingToCart : Bool
deriving DecidableEq

/-- The state the screen is mounted with: `useState(1)`, `useState(false)`. -/
def DetailState.init (product : Product) : DetailState :=
  { product := product, quantity := 1, addingToCart := false }

/-- Handler `increaseQuantity`. -/
def increaseQuantity (d : DetailState) : DetailState :=
  { d with quantity := jsAdd d.quantity 1 }

/-- Handler `decreaseQuantity`. -/
def decreaseQuantity (d : DetailState) : DetailState :=
  if d.quantity > 1 then { d with quantity := jsSub d.quantity 1 } else d

/-- What one step of `addToCart` yields: the screen state, the invocation if it
is still suspended, and the effects of the step. -/
structure AddStep where
  detail : DetailState
  task : Option Task
  effects : List Effect
deriving DecidableEq

/-- Function `addToCart` up to its first `await`: the authentication guard,
`setAddingToCart(true)` and the call of `get(itemRef)`. -/
def addToCart_begin (user : Option String) (d : DetailState) : AddStep :=
  match user with
  | none =>
    { detail := d, task := none
      effects := [.alertLoginRequired, .navigate "Login"] }
  | some uid =>
    { detail := { d with addingToCart := true }
      task := some (.addAwaitGet uid d.product d.quantity)
      effects := [.get uid (pathKey (some d.product.id))] }

/-- The steps of `catch` and `finally` in `addToCart`. -/
def addToCart_failed (d : DetailState) : AddStep :=
  { detail := { d with addingToCart := false }, task := none
    effects := [.consoleError "Error adding to cart:",
                .alertError "Failed to add item to cart. Please try again."] }

/-- The value of `newQuantity` in `addToCart`: `quantity` when the snapshot does
not exist, `existingItem.quantity + quantity` when it does (`NaN`, here `none`,
when the existing record has no quantity). -/
def addToCart_newQuantity (snapshot : Option Item) (quantity : Int) : Option Int :=
  match snapshot with
  | none => some quantity
  | some existingItem => existingItem.quantity.map (fun e => jsAdd e quantity)

/-- The record that `set` stores for the object `addToCart` passes to it: the
five product fields, of which a `null` one is not stored, the new quantity and
the time stamp. -/
def addToCart_record (product : Product) (newQuantity : Int) (now : Nat) : Item :=
  { id := some product.id
    title := product.title.toOption
    price := product.price.toOption
    image := product.image.toOption
    category := product.category.toOption
    quantity := some newQuantity
    addedAt := some now }

/-- Function `addToCart` from the settling of `get(itemRef)` to the next
`await`. `result` is `none` when `get` rejected, else the snapshot. A `NaN`
quantity or an `undefined` property makes `set` throw before anything is
sent, which lands in `catch`. -/
def addToCart_onGet (result : Option (Option Item)) (now : Nat)
    (uid : String) (product : Product) (quantity : Int) (d : DetailState) : AddStep :=
  match result with
  | none => addToCart_failed d
  | some snapshot =>
    match addToCart_newQuantity snapshot quantity with
    | none => addToCart_failed d
    | some newQuantity =>
      if product.hasUndefined then addToCart_failed d
      else
        { detail := d
          task := some (.addAwaitSet uid product quantity
                          (addToCart_record product newQuantity now))
          effects := [.set uid (pathKey (some product.id))
                          (addToCart_record product newQuantity now)] }

/-- Function `addToCart` from the settling of `set(itemRef, record)` to its end. -/
def addToCart_onSet (ok : Bool) (quantity : Int) (d : DetailState) : AddStep :=
  if ok then
    { detail := { d with quantity := 1, addingToCart := false }, task := none
      effects := [.alertSuccess quantity] }
  else addToCart_failed d

/-- The outcomes of the outside world during one run of `addToCart`. -/
structure AddEnv where
  /-- The uid of `auth.currentUser`, if there is one. -/
  user : Option String
  /-- Whether `get(itemRef)` resolves. -/
  getOk : Bool
  /-- The clock when the record is built. -/
  now : Nat
  /-- Whether `set(itemRef, record)` resolves. -/
  setOk : Bool
deriving DecidableEq

/-- The result of a whole run of an operation on the product detail screen. -/
structure AddResult where
  store : Store
  detail : DetailState
  effects : List Effect

/-- Function `addToCart` run from start to end with no other store access in
between (a non-concurrent Add). -/
def addToCart (env : AddEnv) (s : Store) (d : DetailState) : AddResult :=
  let b := addToCart_begin env.user d
  match b.task with
  | some (.addAwaitGet uid product quantity) =>
    let result := if env.getOk then some (dbGet s uid (pathKey (some product.id))) else none
    let g := addToCart_onGet result env.now uid product quantity b.detail
    match g.task with
    | some (.addAwaitSet _ _ _ record) =>
      let w := addToCart_onSet env.setOk quantity g.detail
      { store := if env.setOk then dbSet s uid (pathKey (some product.id)) record else s
        detail := w.detail
        effects := b.effects ++ g.effects ++ w.effects }
    | _ => { store := s, detail := g.detail, effects := b.effects ++ g.effects }
  | _ => { store := s, detail := b.detail, effects := b.effects }

/-- An Add is successful when it reaches the `Success!` alert. -/
def AddResult.succeeded (r : AddResult) : Bool :=
  r.effects.any Effect.isSuccess

/-- Press on the `Add to Cart` button, which is `disabled` while `addingToCart`. -/
def pressAddToCart (user : Option String) (d : DetailState) : AddStep :=
  if d.addingToCart then { detail := d, task := none, effects := [] }
  else addToCart_begin user d

/-! ## Cart screen -/

/-- The state of `CartScreen`: its four `useState` cells. -/
structure CartState where
  cart : List Item
  loading : Bool
  refreshing : Bool
  updatingItems : Node Bool
deriving DecidableEq

/-- The state the screen is mounted with. -/
def CartState.init : CartState :=
  { cart := [], loading := true, refreshing := false, updatingItems := [] }

/-- What one step of a cart-screen handler yields. -/
structure CartStep where
  screen : CartState
  task : Option Task
  effects : List Effect
deriving DecidableEq

/-- Handler `handleRemove`: it only opens the `Remove Item` dialog; the dialog's
Remove button calls `removeFromCart(item)`, its Cancel button does nothing. -/
def handleRemove (item : Item) (c : CartState) : CartStep :=
  { screen := c, task := none, effects := [.alertRemoveItem item] }

/-- Function `removeFromCart` up to its `await`: the authentication guard and
the call of `remove(itemRef)`. -/
def removeFromCart_begin (user : Option String) (item : Item) (c : CartState) : CartStep :=
  match user with
  | none => { screen := c, task := none, effects := [] }
  | some uid =>
    { screen := c, task := some (.removeAwait uid item)
      effects := [.remove uid (pathKey item.id)] }

/-- Function `removeFromCart` from the settling of `remove(itemRef)` to its end. -/
def removeFromCart_settled (ok : Bool) (c : CartState) : CartStep :=
  if ok then { screen := c, task := none, effects := [] }
  else
    { screen := c, task := none
      effects := [.consoleError "Remove error:",
                  .alertError "Could not remove item from cart"] }

/-- The object `updateQuantity` passes to `update`: the item spread, with
`quantity` overwritten. -/
def updateQuantity_patch (item : Item) (newQty : Int) : Item :=
  { item with quantity := some newQty }

/-- Function `updateQuantity` up to its `await`: the authentication guard, the
hand-over to `handleRemove` for `newQty <= 0`, the busy flag and the call of
`update(itemRef, patch)`. -/
def updateQuantity_begin (user : Option String) (item : Item) (newQty : Int)
    (c : CartState) : CartStep :=
  match user with
  | none => { screen := c, task := none, effects := [] }
  | some uid =>
    if newQty ≤ 0 then handleRemove item c
    else
      { screen := { c with updatingItems := nodePut (pathKey item.id) true c.updatingItems }
        task := some (.updateAwait uid item (updateQuantity_patch item newQty))
        effects := [.update uid (pathKey item.id) (updateQuantity_patch item newQty)] }

/-- Function `updateQuantity` from the settling of `update(itemRef, patch)` to
its end: `catch` when it rejected, then `finally`. -/
def updateQuantity_settled (ok : Bool) (item : Item) (c : CartState) : CartStep :=
  { screen := { c with updatingItems := nodePut (pathKey item.id) false c.updatingItems }
    task := none
    effects := if ok then []
               else [.consoleError "Update quantity error:",
                     .alertError "Could not update quantity"] }

/-- The result of a whole run of an operation on the cart screen. -/
structure CartResult where
  store : Store
  screen : CartState
  effects : List Effect

/-- Function `removeFromCart` run from start to end; `ok` says whether
`remove(itemRef)` resolves. -/
def removeFromCart (user : Option String) (ok : Bool) (s : Store) (item : Item)
    (c : CartState) : CartResult :=
  let b := removeFromCart_begin user item c
  match b.task with
  | some (.removeAwait uid item) =>
    let r := removeFromCart_settled ok b.screen
    { store := if ok then dbRemove s uid (pathKey item.id) else s
      screen := r.screen
      effects := b.effects ++ r.effects }
  | _ => { store := s, screen := b.screen, effects := b.effects }

/-- Function `updateQuantity` run from start to end; `ok` says whether
`update(itemRef, patch)` resolves. -/
def updateQuantity (user : Option String) (ok : Bool) (s : Store) (item : Item)
    (newQty : Int) (c : CartState) : CartResult :=
  let b := updateQuantity_begin user item newQty c
  match b.task with
  | some (.updateAwait uid item patch) =>
    let r := updateQuantity_settled ok item b.screen
    { store := if ok then dbUpdate s uid (pathKey item.id) patch else s
      screen := r.screen
      effects := b.effects ++ r.effects }
  | _ => { store := s, screen := b.screen, effects := b.effects }

/-- The answer to the `Remove Item` dialog that `handleRemove` opened for
`item`: `confirm` is the Remove button (which runs `removeFromCart(item)`),
otherwise Cancel. -/
def answerRemoveItem (confirm : Bool) (user : Option String) (ok : Bool) (s : Store)
    (item : Item) (c : CartState) : CartResult :=
  if confirm then removeFromCart user ok s item c
  else { store := s, screen := c, effects := [] }

/-! ## The two screens and the store as one transition system -/

/-- The session: the signed-in user, the remote store, the two screens, the
suspended invocations and the effects so far. -/
structure World where
  user : Option String
  store : Store
  detail : DetailState
  cartScreen : CartState
  tasks : List Task
  log : List Effect

/-- What can happen next. -/
inductive Event
  /-- Press on `+` of the quantity selector. -/
  | pressIncrease
  /-- Press on `-` of the quantity selector. -/
  | pressDecrease
  /-- Press on `Add to Cart`. -/
  | pressAddToCart
  /-- Call of `updateQuantity(item, newQty)`. -/
  | updateQuantity (item : Item) (newQty : Int)
  /-- Call of `removeFromCart(item)`. -/
  | removeFromCart (item : Item)
  /-- The oldest outstanding repository call settles: it resolves when `ok`,
  else rejects; `now` is the clock. The calls of one client reach the server
  in the order in which they were issued and are answered in that order. -/
  | settle (ok : Bool) (now : Nat)
deriving DecidableEq

/-- The list of suspended invocations with one more, if there is one. -/
def spawn (tasks : List Task) : Option Task → List Task
  | none => tasks
  | some t => tasks ++ [t]

/-- The settling of the repository call of a suspended invocation: the call
reads or changes the store as it is when the call is answered, and the
invocation resumes with the result. -/
def settleTask (w : World) (i : Nat) (ok : Bool) (now : Nat) : Task → World
  | .addAwaitGet uid product quantity =>
    let result := if ok then some (dbGet w.store uid (pathKey (some product.id))) else none
    let g := addToCart_onGet result now uid product quantity w.detail
    { w with detail := g.detail
             tasks := spawn (w.tasks.eraseIdx i) g.task
             log := w.log ++ g.effects }
  | .addAwaitSet uid product quantity record =>
    let a := addToCart_onSet ok quantity w.detail
    { w with store := if ok then dbSet w.store uid (pathKey (some product.id)) record
                      else w.store
             detail := a.detail
             tasks := spawn (w.tasks.eraseIdx i) a.task
             log := w.log ++ a.effects }
  | .updateAwait uid item patch =>
    let r := updateQuantity_settled ok item w.cartScreen
    { w with store := if ok then dbUpdate w.store uid (pathKey item.id) patch else w.store
             cartScreen := r.screen
             tasks := spawn (w.tasks.eraseIdx i) r.task
             log := w.log ++ r.effects }
  | .removeAwait uid item =>
    let r := removeFromCart_settled ok w.cartScreen
    { w with store := if ok then dbRemove w.store uid (pathKey item.id) else w.store
             cartScreen := r.screen
             tasks := spawn (w.tasks.eraseIdx i) r.task
             log := w.log ++ r.effects }

/-- One transition of the session. -/
def step (w : World) : Event → World
  | .pressIncrease => { w with detail := increaseQuantity w.detail }
  | .pressDecrease => { w with detail := decreaseQuantity w.detail }
  | .pressAddToCart =>
    let b := pressAddToCart w.user w.detail
    { w with detail := b.detail, tasks := spawn w.tasks b.task, log := w.log ++ b.effects }
  | .updateQuantity item newQty =>
    let b := updateQuantity_begin w.user item newQty w.cartScreen
    { w with cartScreen := b.screen, tasks := spawn w.tasks b.task, log := w.log ++ b.effects }
  | .removeFromCart item =>
    let b := removeFromCart_begin w.user item w.cartScreen
    { w with cartScreen := b.screen, tasks := spawn w.tasks b.task, log := w.log ++ b.effects }
  | .settle ok now =>
    match w.tasks.get? 0 with
    | none => w
    | some t => settleTask w 0 ok now t

/-- The session after a sequence of events. -/
def run (w : World) (events : List Event) : World :=
  events.foldl step w

/-- The session when both screens have just been mounted. -/
def World.init (user : Option String) (store : Store) (product : Product) : World :=
  { user := user, store := store, detail := DetailState.init product
    cartScreen := CartState.init, tasks := [], log := [] }

/-- The suspended invocations of `addToCart`. -/
def Task.isAdd : Task → Bool
  | .addAwaitGet _ _ _ => true
  | .addAwaitSet _ _ _ _ => true
  | _ => false

/-! ## Cart screen: subscription, reconciliation and aggregates -/

/-- Function `loadCart`: the authentication guard, `setLoading(true)` and the
opening of the listener with `onValue(cartRef, ...)`. -/
def loadCart (user : Option String) (c : CartState) : CartStep :=
  match user with
  | none => { screen := c, task := none, effects := [.alertPleaseLogin, .navigate "Login"] }
  | some uid => { screen := { c with loading := true }, task := none, effects := [.onValue uid] }

/-- The snapshot callback that `loadCart` hands to `onValue`. `data` is
`snapshot.val()`, the node `carts/<uid>`; a node with no child is `null`, which
is falsy. `Object.values` of an object does not throw, so the `catch` branch is
never taken. -/
def loadCart_onSnapshot (data : Node Item) (c : CartState) : CartState :=
  match data with
  | [] => { c with cart := [], loading := false, refreshing := false }
  | _ :: _ => { c with cart := data.map Prod.snd, loading := false, refreshing := false }

/-- The error callback that `loadCart` hands to `onValue`. -/
def loadCart_onError (c : CartState) : CartStep :=
  { screen := { c with loading := false, refreshing := false }
    task := none
    effects := [.consoleError "Firebase error:",
                .alertError "Could not load cart. Please check your connection."] }

/-- Handler `onRefresh`. -/
def onRefresh (user : Option String) (c : CartState) : CartStep :=
  loadCart user { c with refreshing := true }

/-- Function `getTotalPrice`: the left fold of `total + item.price * item.quantity`
from 0, each product and each sum rounded to the nearest double; `none` is
`NaN`, the result as soon as a price or a quantity is missing. -/
def getTotalPrice (c : CartState) : Option ℚ :=
  c.cart.foldl
    (fun total item =>
      match total, item.price, item.quantity with
      | some t, some price, some quantity => some (jsAddNumber t (jsMulNumber price quantity))
      | _, _, _ => none)
    (some 0)

/-- Function `getTotalItems`: the left fold of `total + item.quantity` from 0;
`none` is `NaN`, the result as soon as a quantity is missing. -/
def getTotalItems (c : CartState) : Option Int :=
  c.cart.foldl
    (fun total item =>
      match total, item.quantity with
      | some t, some quantity => some (jsAdd t quantity)
      | _, _ => none)
    (some 0)

/-- The subtotal `item.price * item.quantity` that `renderCartItem` shows
through `toFixed(2)`: the value of the product, to two decimals. -/
def subtotal (item : Item) : Option ℚ :=
  match item.price, item.quantity with
  | some price, some quantity => some (price * quantity)
  | _, _ => none

/-- Whether the screen shows the `Your cart is empty` view: not `loading`, and
`cart.length === 0`. -/
def showsEmptyCart (c : CartState) : Bool :=
  !c.loading && c.cart.isEmpty

/-- Whether a record has all seven wire fields. -/
def Item.isComplete (item : Item) : Bool :=
  item.id.isSome && item.title.isSome && item.price.isSome && item.image.isSome
    && item.category.isSome && item.quantity.isSome && item.addedAt.isSome

/-- The cart screen over its lifetime: its state, whether it is mounted, the
number of listeners opened by `onValue` that have not been cancelled, and the
effects so far. -/
structure CartSession where
  screen : CartState
  mounted : Bool
  listeners : Nat
  log : List Effect
deriving DecidableEq

/-- What can happen to the cart screen. -/
inductive CartEvent
  /-- The screen is mounted: the `useEffect` runs `loadCart()`. -/
  | mount (user : Option String)
  /-- Pull to refresh: `onRefresh()`. -/
  | refresh (user : Option String)
  /-- The store delivers a snapshot of `carts/<uid>` to a listener. -/
  | snapshot (data : Node Item)
  /-- The store cancels a listener with an error. -/
  | listenError
  /-- The screen is torn down. The `useEffect` returns no cleanup function. -/
  | teardown
deriving DecidableEq

/-- The number of listeners a run of `loadCart` opens. -/
def listenersOpened (user : Option String) : Nat :=
  match user with
  | none => 0
  | some _ => 1

/-- One transition of the cart screen. A callback runs only while a listener is open. -/
def cartStep (s : CartSession) : CartEvent → CartSession
  | .mount user =>
    let r := loadCart user s.screen
    { s with screen := r.screen, mounted := true
             listeners := s.listeners + listenersOpened user, log := s.log ++ r.effects }
  | .refresh user =>
    let r := onRefresh user s.screen
    { s with screen := r.screen
             listeners := s.listeners + listenersOpened user, log := s.log ++ r.effects }
  | .snapshot data =>
    if s.listeners = 0 then s
    else { s with screen := loadCart_onSnapshot data s.screen }
  | .listenError =>
    if s.listeners = 0 then s
    else
      let r := loadCart_onError s.screen
      { s with screen := r.screen, listeners := s.listeners - 1, log := s.log ++ r.effects }
  | .teardown => { s with mounted := false }

/-- The cart screen after a sequence of events. -/
def cartRun (s : CartSession) (events : List CartEvent) : CartSession :=
  events.foldl cartStep s

/-- The cart screen before it is mounted. -/
def CartSession.init : CartSession :=
  { screen := CartState.init, mounted := false, listeners := 0, log := [] }

/-- Whether an event is the delivery of a snapshot. -/
def CartEvent.isSnapshot : CartEvent → Bool
  | .snapshot _ => true
  | _ => false

/-- Every record of the store has a quantity, an integer that is at least 1. -/
def StoreValid (s : Store) : Prop :=
  ∀ uid key item, dbGet s uid key = some item → ∃ q, item.quantity = some q ∧ 1 ≤ q

/-- The sum of the quantities that the items of a list have. -/
def sumQuantity (cart : List Item) : Int :=
  (cart.filterMap Item.quantity).sum

/-! ## Sample data -/

/-- A store with no cart at all. -/
def emptyStore : Store := fun _ => []

/-- Product `A` of the example scenario. -/
def productA : Product :=
  { id := 1, title := .value "A", price := .value 9.99, image := .value "a.png"
    category := .value "sample" }

/-- A line item for product `A` with the given quantity, added at time 100. -/
def itemA (quantity : Int) : Item := addToCart_record productA quantity 100

/-- A store in which user `u` holds `quantity` units of product `A`. -/
def storeA (quantity : Int) : Store :=
  dbSet emptyStore "u" (pathKey (some productA.id)) (itemA quantity)

/-- The outside world of an Add by user `u` at time `now` in which both
repository calls resolve. -/
def envOk (now : Nat) : AddEnv :=
  { user := some "u", getOk := true, now := now, setOk := true }

/-- The detail screen of product `A` with the selector at `quantity`. -/
def detailA (quantity : Int) : DetailState :=
  { product := productA, quantity := quantity, addingToCart := false }

/-- The cart screen of user `u` once it has reconciled `storeA quantity`. -/
def cartA (quantity : Int) : CartState :=
  { cart := [itemA quantity], loading := false, refreshing := false, updatingItems := [] }

/-- The session of user `u`: the store holds 2 units of product `A`, the detail
screen of `A` has its selector at 3, the cart screen shows the stored item. -/
def worldA : World :=
  { user := some "u", store := storeA 2, detail := detailA 3, cartScreen := cartA 2
    tasks := [], log := [] }

/-- The number of suspended invocations of `addToCart`. -/
def pendingAdds (w : World) : Nat :=
  w.tasks.countP Task.isAdd

/-- The invariant of the session: at most one invocation of `addToCart` is
suspended, and none is while `addingToCart` is false. -/
def AddInvariant (w : World) : Prop :=
  pendingAdds w ≤ 1 ∧ (w.detail.addingToCart = false → pendingAdds w = 0)

/-- The detail screen of product `A` while an Add is pending. -/
def detailAdding : DetailState :=
  { product := productA, quantity := 3, addingToCart := true }

/-- A cart of three line items with quantities 2, 5 and 1. -/
def cartThree : CartState :=
  { cart := [itemA 2, itemA 5, itemA 1], loading := false, refreshing := false
    updatingItems := [] }

/-- A record for product 2 that lacks its `title`. -/
def itemNoTitle : Item :=
  { id := some 2, title := none, price := some 5, image := some "b.png"
    category := some "sample", quantity := some 4, addedAt := some 50 }

/-- A snapshot of one valid entry and one malformed entry. -/
def snapshotMalformed : Node Item :=
  [(pathKey (some productA.id), itemA 2), (pathKey itemNoTitle.id, itemNoTitle)]

/-- A store in which the cart of user `u` is `snapshotMalformed`. -/
def storeMalformed : Store :=
  fun uid => if uid = "u" then snapshotMalformed else []

/-- The cart screen of user `u` once it has reconciled the store `s`. -/
def viewOf (s : Store) : CartState :=
  loadCart_onSnapshot (s "u") CartState.init

/-- The example scenario, step 1: `Add(A, 2)` at time 100 on the empty store. -/
def scenario1 : Store :=
  (addToCart (envOk 100) emptyStore (detailA 2)).store

/-- The example scenario, step 2: `Add(A, 3)` at time 200. -/
def scenario2 : Store :=
  (addToCart (envOk 200) scenario1 (detailA 3)).store

/-- The example scenario, step 3: `SetQuantity(A, 1)` on the item the cart shows. -/
def scenario3 : Store :=
  (updateQuantity (some "u") true scenario2 (addToCart_record productA 5 200) 1
    (viewOf scenario2)).store

/-- The example scenario, step 4: `SetQuantity(A, 0)` on the item the cart shows. -/
def scenario4 : CartResult :=
  updateQuantity (some "u") true scenario3 (addToCart_record productA 1 200) 0 (viewOf scenario3)

/-- The example scenario, step 5: the user answers Remove in the dialog that
step 4 opened, and the `remove` resolves. -/
def scenario5 : Store :=
  (answerRemoveItem true (some "u") true scenario4.store (addToCart_record productA 1 200)
    (viewOf scenario4.store)).store

/-- The outside world of an Add by user `u` whose read rejects. -/
def envReadFails : AddEnv :=
  { user := some "u", getOk := false, now := 300, setOk := true }

/-- The number a decimal digit character stands for. -/
def digitValue (c : Char) : Nat := c.toNat - 48

/-- The number that a list of decimal digit characters spells after `acc`. -/
def digitsValue (acc : Nat) (ds : List Char) : Nat :=
  ds.foldl (fun a c => a * 10 + digitValue c) acc

/-- The `quantity` that a suspended invocation of `addToCart` captured, the
quantity to add. -/
def Task.addQuantity : Task → Option Int
  | .addAwaitGet _ _ quantity => some quantity
  | .addAwaitSet _ _ quantity _ => some quantity
  | _ => none

/-- The invariant of the quantity selector: the selector is at least 1, and so
is the quantity captured by every suspended invocation of `addToCart`. -/
def SelectorInvariant (w : World) : Prop :=
  1 ≤ w.detail.quantity ∧ ∀ t ∈ w.tasks, ∀ q, Task.addQuantity t = some q → 1 ≤ q

/-- A record for product 3 that lacks its `quantity`. -/
def itemNoQuantity : Item :=
  { id := some 3, title := some "C", price := some 5, image := some "c.png"
    category := some "sample", quantity := none, addedAt := some 60 }

/-- A store in which the cart of user `u` holds 2 units of product `A` and the
record without `quantity`. -/
def storeNoQuantity : Store :=
  fun uid =>
    if uid = "u" then
      [(pathKey (some productA.id), itemA 2), (pathKey itemNoQuantity.id, itemNoQuantity)]
    else []

/-- A cart of two line items with quantities `2 ^ 53` and 1. -/
def cartHuge : CartState :=
  { cart := [itemA 9007199254740992, itemA 1], loading := false, refreshing := false
    updatingItems := [] }

/-- The sum of the exact products `price * quantity` of the items of a list. -/
def sumPrice (cart : List Item) : ℚ :=
  (cart.filterMap subtotal).sum

/-- Every price, every quantity, every product `price * quantity` and every
partial sum that `getTotalPrice` forms on the list, starting from `total`, is
a double: rounding leaves it as it is. -/
def exactSums (total : ℚ) : List Item → Prop
  | [] => True
  | item :: rest =>
    ∃ price quantity, item.price = some price ∧ item.quantity = some quantity
      ∧ roundDouble price = price ∧ roundInt quantity = quantity
      ∧ roundDouble (price * quantity) = price * quantity
      ∧ roundDouble (total + price * quantity) = total + price * quantity
      ∧ exactSums (total + price * quantity) rest

/-- Product `A` as the catalog would send it with `category: null`. -/
def productNullCategory : Product :=
  { productA with category := .null }

/-- The detail screen of that product with the selector at 2. -/
def detailNullCategory : DetailState :=
  { product := productNullCategory, quantity := 2, addingToCart := false }

/-- Whether a product has the four fields that `addToCart` copies besides `id`. -/
def Product.isComplete (product : Product) : Bool :=
  product.title.toOption.isSome && product.price.toOption.isSome
    && product.image.toOption.isSome && product.category.toOption.isSome

/-- The double nearest to 0.1. -/
def priceTenth : ℚ := 3602879701896397 / 36028797018963968

/-- A cart of one line item: 3 units at the price 0.1. -/
def cartTenth : CartState :=
  { cart := [{ itemA 3 with price := some (1 / 10) }], loading := false
    refreshing := false, updatingItems := [] }

/-- A cart of one line item: 1 unit at the price 0.125. -/
def cartEighth : CartState :=
  { cart := [{ itemA 1 with price := some (1 / 8) }], loading := false
    refreshing := false, updatingItems := [] }

/-! ## Facts about database nodes -/

theorem nodeGet_nodePut_same {α : Type} (k : String) (v : α) (n : Node α) :
    nodeGet (nodePut k v n) k = some v := by
  induction n with
  | nil => simp [nodePut, nodeGet]
  | cons e rest ih =>
    obtain ⟨k', v'⟩ := e
    by_cases h : k' = k
    · simp [nodePut, nodeGet, h]
    · simp [nodePut, nodeGet, h, ih]

theorem nodeGet_nodePut_other {α : Type} (k k' : String) (v : α) (n : Node α) (h : k' ≠ k) :
    nodeGet (nodePut k v n) k' = nodeGet n k' := by
  induction n with
  | nil => simp [nodePut, nodeGet, Ne.symm h]
  | cons e rest ih =>
    obtain ⟨k₀, v₀⟩ := e
    by_cases h₀ : k₀ = k
    · subst h₀
      simp [nodePut, nodeGet, Ne.symm h]
    · by_cases h₁ : k₀ = k'
      · subst h₁
        simp [nodePut, nodeGet, h]
      · simp [nodePut, nodeGet, h₀, h₁, ih]

theorem nodeGet_nodeDel_same {α : Type} (k : String) (n : Node α) :
    nodeGet (nodeDel k n) k = none := by
  induction n with
  | nil => simp [nodeDel, nodeGet]
  | cons e rest ih =>
    obtain ⟨k', v'⟩ := e
    by_cases h : k' = k
    · simp [nodeDel, h, ih]
    · simp [nodeDel, nodeGet, h, ih]

theorem nodeGet_nodeDel_other {α : Type} (k k' : String) (n : Node α) (h : k' ≠ k) :
    nodeGet (nodeDel k n) k' = nodeGet n k' := by
  induction n with
  | nil => simp [nodeDel, nodeGet]
  | cons e rest ih =>
    obtain ⟨k₀, v₀⟩ := e
    by_cases h₀ : k₀ = k
    · subst h₀
      simp [nodeDel, nodeGet, Ne.symm h, ih]
    · by_cases h₁ : k₀ = k'
      · subst h₁
        simp [nodeDel, nodeGet, h]
      · simp [nodeDel, nodeGet, h₀, h₁, ih]

theorem nodeDel_of_absent {α : Type} (k : String) (n : Node α) (h : nodeGet n k = none) :
    nodeDel k n = n := by
  induction n with
  | nil => rfl
  | cons e rest ih =>
    obtain ⟨k', v'⟩ := e
    by_cases h' : k' = k
    · simp [nodeGet, h'] at h
    · simp only [nodeGet, h', if_false] at h
      simp [nodeDel, h', ih h]

theorem nodeDel_nodeDel {α : Type} (k : String) (n : Node α) :
    nodeDel k (nodeDel k n) = nodeDel k n :=
  nodeDel_of_absent k _ (nodeGet_nodeDel_same k n)

/-! ## Facts about JavaScript numbers -/

theorem scaleUp_lt (fuel n d : Nat) (h : n < d * 2 ^ 53) :
    n * 2 ^ scaleUp fuel n d < d * 2 ^ 53 := by
  induction fuel generalizing n with
  | zero => simpa [scaleUp] using h
  | succ fuel ih =>
    simp only [scaleUp]
    split
    · simpa using h
    · rename_i hlt
      have h2 : 2 * n < d * 2 ^ 53 := by
        have : d * 2 ^ 53 = 2 * (d * 2 ^ 52) := by ring
        omega
      have := ih (2 * n) h2
      calc n * 2 ^ (scaleUp fuel (2 * n) d + 1)
          = 2 * n * 2 ^ scaleUp fuel (2 * n) d := by ring
        _ < d * 2 ^ 53 := this

theorem scaleDown_le (fuel n d : Nat) (h : d ≤ n) :
    d * 2 ^ scaleDown fuel n d ≤ n := by
  induction fuel generalizing d with
  | zero => simpa [scaleDown] using h
  | succ fuel ih =>
    simp only [scaleDown]
    split
    · simpa using h
    · rename_i hge
      have h2 : 2 * d ≤ n := by
        have : d * 2 ^ 53 = 2 * d + (2 ^ 53 - 2) * d := by
          have : (2:ℕ) ^ 53 = 2 + (2 ^ 53 - 2) := by norm_num
          nlinarith
        omega
      have := ih (2 * d) h2
      calc d * 2 ^ (scaleDown fuel n (2 * d) + 1)
          = 2 * d * 2 ^ scaleDown fuel n (2 * d) := by ring
        _ ≤ n := this

theorem le_roundHalfEven (n d : Nat) : n / d ≤ roundHalfEven n d := by
  unfold roundHalfEven
  split
  · exact le_refl _
  · split
    · omega
    · split <;> omega

theorem roundHalfEven_one (n : Nat) : roundHalfEven n 1 = n := by
  simp [roundHalfEven, Nat.mod_one]

theorem roundCore_small (n : Nat) (h : n < 2 ^ 53) :
    (roundCore n 1).mantissa * 2 ^ (roundCore n 1).down / 2 ^ (roundCore n 1).up = n := by
  by_cases h0 : n = 0
  · simp [roundCore, h0]
  · have hup := scaleUp_lt (1 + 53) n 1 (by simpa using h)
    have hdown : scaleDown n (n * 2 ^ scaleUp (1 + 53) n 1) 1 = 0 := by
      obtain ⟨k, rfl⟩ := Nat.exists_eq_succ_of_ne_zero h0
      simp only [scaleDown]
      rw [if_pos hup]
    simp only [roundCore, h0, if_false, hdown, pow_zero, mul_one, roundHalfEven_one]
    exact Nat.mul_div_cancel _ (by positivity)

theorem roundInt_small (x : Int) (h : x.natAbs < 2 ^ 53) : roundInt x = x := by
  unfold roundInt
  rw [roundCore_small x.natAbs h]
  exact Int.sign_mul_natAbs x

/-- An integer of magnitude at most `2 ^ 53` is a double. -/
theorem roundInt_exact (x : Int) (h : |x| ≤ 2 ^ 53) : roundInt x = x := by
  by_cases hlt : x.natAbs < 2 ^ 53
  · exact roundInt_small x hlt
  · have habs : |x| = 2 ^ 53 := by
      have : (x.natAbs : Int) = |x| := Int.natCast_natAbs x
      have h1 : ((2 ^ 53 : Nat) : Int) ≤ (x.natAbs : Int) := by
        exact_mod_cast Nat.le_of_not_lt hlt
      have h2 : ((2 ^ 53 : Nat) : Int) = 2 ^ 53 := by norm_num
      omega
    rcases abs_eq (by norm_num : (0:Int) ≤ 2 ^ 53) |>.mp habs with h | h
    · rw [h]; decide
    · rw [h]; decide

theorem scaleDown_lower (fuel n d : Nat) (h : d * 2 ^ 52 ≤ n) :
    d * 2 ^ 52 * 2 ^ scaleDown fuel n d ≤ n := by
  induction fuel generalizing d with
  | zero => simpa [scaleDown] using h
  | succ fuel ih =>
    simp only [scaleDown]
    split
    · simpa using h
    · rename_i hge
      have h2 : 2 * d * 2 ^ 52 ≤ n := by
        have : d * 2 ^ 53 = 2 * d * 2 ^ 52 := by ring
        omega
      have := ih (2 * d) h2
      calc d * 2 ^ 52 * 2 ^ (scaleDown fuel n (2 * d) + 1)
          = 2 * d * 2 ^ 52 * 2 ^ scaleDown fuel n (2 * d) := by ring
        _ ≤ n := this

theorem roundInt_large (x : Int) (h : 2 ^ 53 ≤ x) : 2 ^ 52 ≤ roundInt x := by
  have hn : 2 ^ 53 ≤ x.natAbs := by omega
  have h0 : x.natAbs ≠ 0 := by omega
  have hup : scaleUp (1 + 53) x.natAbs 1 = 0 := by
    have : (1 + 53 : Nat) = 53 + 1 := rfl
    rw [this]
    simp only [scaleUp]
    rw [if_pos (by omega)]
  have hlow := scaleDown_lower x.natAbs x.natAbs 1 (by omega)
  rw [one_mul] at hlow
  have hm := le_roundHalfEven x.natAbs (2 ^ scaleDown x.natAbs x.natAbs 1)
  have hq : 2 ^ 52 ≤ x.natAbs / 2 ^ scaleDown x.natAbs x.natAbs 1 :=
    (Nat.le_div_iff_mul_le (by positivity)).mpr hlow
  have hsign : x.sign = 1 := Int.sign_eq_one_of_pos (by omega)
  unfold roundInt
  simp only [roundCore, h0, if_false, hup, pow_zero, mul_one, Nat.div_one, hsign, one_mul]
  have : 2 ^ 52 ≤ roundHalfEven x.natAbs (2 ^ scaleDown x.natAbs x.natAbs 1)
      * 2 ^ scaleDown x.natAbs x.natAbs 1 := by
    have hp : 1 ≤ 2 ^ scaleDown x.natAbs x.natAbs 1 := Nat.one_le_two_pow
    calc 2 ^ 52 = 2 ^ 52 * 1 := by ring
      _ ≤ _ := Nat.mul_le_mul (le_trans hq hm) hp
  exact_mod_cast this

/-- Rounding to the nearest double does not take a non-negative integer below
a bound of at most `2 ^ 52` that it reaches. -/
theorem roundInt_ge (k x : Int) (hk : k ≤ 2 ^ 52) (h : k ≤ x) (hx : 0 ≤ x) :
    k ≤ roundInt x := by
  by_cases hlt : x.natAbs < 2 ^ 53
  · rw [roundInt_small x hlt]; exact h
  · have hbig : 2 ^ 53 ≤ x := by omega
    exact le_trans hk (roundInt_large x hbig)

/-- Rounding to the nearest double keeps a positive integer positive. -/
theorem one_le_roundInt (x : Int) (h : 1 ≤ x) : 1 ≤ roundInt x :=
  roundInt_ge 1 x (by norm_num) h (by omega)

theorem jsAdd_exact (a b : Int) (ha : |a| ≤ 2 ^ 53) (hb : |b| ≤ 2 ^ 53)
    (h : |a + b| ≤ 2 ^ 53) : jsAdd a b = a + b := by
  unfold jsAdd
  rw [roundInt_exact a ha, roundInt_exact b hb, roundInt_exact (a + b) h]

theorem one_le_jsAdd (a b : Int) (ha : 1 ≤ a) (hb : 1 ≤ b) : 1 ≤ jsAdd a b := by
  have h1 := one_le_roundInt a ha
  have h2 := one_le_roundInt b hb
  exact one_le_roundInt _ (by omega)

theorem one_le_jsSub_one (a : Int) (h : 1 < a) : 1 ≤ jsSub a 1 := by
  have h1 : (2 : Int) ≤ roundInt a := roundInt_ge 2 a (by norm_num) (by omega) (by omega)
  have h2 : roundInt 1 = 1 := by decide
  unfold jsSub
  rw [h2]
  exact one_le_roundInt _ (by omega)

theorem roundDouble_zero : roundDouble 0 = 0 := by
  simp [roundDouble]

/-- The double nearest to a positive fraction in lowest terms. -/
theorem roundDouble_div (n d : Nat) (hd : d ≠ 0) (hn : n ≠ 0) (hc : Nat.Coprime n d) :
    roundDouble ((n : ℚ) / d)
      = (((roundCore n d).mantissa * 2 ^ (roundCore n d).down : Nat) : ℚ)
          / ((2 ^ (roundCore n d).up : Nat) : ℚ) := by
  have hnum : ((n : ℚ) / d).num = n := by
    have := Rat.num_div_eq_of_coprime (a := (n : Int)) (b := (d : Int))
      (by exact_mod_cast Nat.pos_of_ne_zero hd) (by simpa using hc)
    simpa using this
  have hden : ((n : ℚ) / d).den = d := by
    have h := Rat.den_div_eq_of_coprime (a := (n : Int)) (b := (d : Int))
      (by exact_mod_cast Nat.pos_of_ne_zero hd) (by simpa using hc)
    simp only [Int.cast_natCast] at h
    exact Nat.cast_injective h
  unfold roundDouble
  rw [hnum, hden]
  have : ((n : Int)).sign = 1 := Int.sign_eq_one_of_pos (by exact_mod_cast Nat.pos_of_ne_zero hn)
  simp [this]

/-! ## Facts about the store -/

theorem dbGet_dbSet_same (s : Store) (uid key : String) (v : Item) :
    dbGet (dbSet s uid key v) uid key = some v := by
  simp [dbGet, dbSet, nodeGet_nodePut_same]

theorem dbGet_dbRemove_same (s : Store) (uid key : String) :
    dbGet (dbRemove s uid key) uid key = none := by
  simp [dbGet, dbRemove, nodeGet_nodeDel_same]

theorem dbRemove_of_absent (s : Store) (uid key : String) (h : dbGet s uid key = none) :
    dbRemove s uid key = s := by
  funext u
  by_cases hu : u = uid
  · subst hu
    simp [dbRemove, nodeDel_of_absent key (s u) h]
  · simp [dbRemove, hu]

theorem dbRemove_dbRemove (s : Store) (uid key : String) :
    dbRemove (dbRemove s uid key) uid key = dbRemove s uid key :=
  dbRemove_of_absent _ uid key (dbGet_dbRemove_same s uid key)

theorem Item.merge_self (item : Item) (newQty : Int) :
    Item.merge (updateQuantity_patch item newQty) item = updateQuantity_patch item newQty := by
  cases item
  simp [Item.merge, updateQuantity_patch]

theorem dbGet_dbUpdate_same (s : Store) (uid key : String) (patch : Item) :
    dbGet (dbUpdate s uid key patch) uid key
      = some (match dbGet s uid key with
              | some old => Item.merge patch old
              | none => patch) := by
  unfold dbUpdate
  cases h : dbGet s uid key <;> simp [dbGet_dbSet_same]

theorem dbGet_dbUpdate_quantity (s : Store) (uid key : String) (item : Item) (newQty : Int) :
    ∃ stored, dbGet (dbUpdate s uid key (updateQuantity_patch item newQty)) uid key = some stored
      ∧ stored.quantity = some newQty := by
  rw [dbGet_dbUpdate_same]
  cases dbGet s uid key with
  | none => exact ⟨_, rfl, rfl⟩
  | some old => exact ⟨_, rfl, by simp [Item.merge, updateQuantity_patch]⟩

/-! ## Facts about `addToCart` -/

/-- A run of `addToCart` by a signed-in user in which both repository calls
resolve, the quantity is a number and no copied field is `undefined`: the
record is written and the alert shown. -/
theorem addToCart_ok (env : AddEnv) (s : Store) (d : DetailState) (uid : String) (nq : Int)
    (hu : env.user = some uid) (hg : env.getOk = true) (hs : env.setOk = true)
    (hq : addToCart_newQuantity (dbGet s uid (pathKey (some d.product.id))) d.quantity = some nq)
    (hdef : d.product.hasUndefined = false) :
    (addToCart env s d).store
        = dbSet s uid (pathKey (some d.product.id)) (addToCart_record d.product nq env.now)
      ∧ (addToCart env s d).detail = { d with quantity := 1, addingToCart := false }
      ∧ (addToCart env s d).effects
          = [.get uid (pathKey (some d.product.id)),
             .set uid (pathKey (some d.product.id)) (addToCart_record d.product nq env.now),
             .alertSuccess d.quantity] := by
  simp [addToCart, addToCart_begin, addToCart_onGet, addToCart_onSet, hu, hg, hs, hq, hdef]

/-- A successful run of `addToCart` had a signed-in user, both repository calls
resolved, the quantity it computed was a number and no copied field was
`undefined`. -/
theorem addToCart_of_succeeded (env : AddEnv) (s : Store) (d : DetailState)
    (h : (addToCart env s d).succeeded = true) :
    ∃ uid nq, env.user = some uid ∧ env.getOk = true ∧ env.setOk = true
      ∧ addToCart_newQuantity (dbGet s uid (pathKey (some d.product.id))) d.quantity = some nq
      ∧ d.product.hasUndefined = false := by
  cases hu : env.user with
  | none =>
    simp [addToCart, addToCart_begin, AddResult.succeeded, hu, Effect.isSuccess] at h
  | some uid =>
    refine ⟨uid, ?_⟩
    cases hg : env.getOk with
    | false =>
      simp [addToCart, addToCart_begin, addToCart_onGet, addToCart_failed,
        AddResult.succeeded, hu, hg, Effect.isSuccess] at h
    | true =>
      cases hq : addToCart_newQuantity (dbGet s uid (pathKey (some d.product.id))) d.quantity with
      | none =>
        simp [addToCart, addToCart_begin, addToCart_onGet, addToCart_failed,
          AddResult.succeeded, hu, hg, hq, Effect.isSuccess] at h
      | some nq =>
        cases hdef : d.product.hasUndefined with
        | true =>
          simp [addToCart, addToCart_begin, addToCart_onGet, addToCart_failed,
            AddResult.succeeded, hu, hg, hq, hdef, Effect.isSuccess] at h
        | false =>
          cases hs : env.setOk with
          | false =>
            simp [addToCart, addToCart_begin, addToCart_onGet, addToCart_onSet,
              addToCart_failed, AddResult.succeeded, hu, hg, hq, hdef, hs, Effect.isSuccess] at h
          | true => exact ⟨nq, rfl, rfl, rfl, rfl, rfl⟩

/-! ## Facts about the transition system -/

theorem countP_spawn (tasks : List Task) (o : Option Task) :
    (spawn tasks o).countP Task.isAdd
      = tasks.countP Task.isAdd + (match o with
                                   | none => 0
                                   | some t => if Task.isAdd t then 1 else 0) := by
  cases o with
  | none => simp [spawn]
  | some t => by_cases h : Task.isAdd t = true <;> simp [spawn, List.countP_append, h]

theorem countP_eraseIdx (tasks : List Task) (i : Nat) (t : Task) (h : tasks.get? i = some t) :
    (tasks.eraseIdx i).countP Task.isAdd + (if Task.isAdd t then 1 else 0)
      = tasks.countP Task.isAdd := by
  induction tasks generalizing i with
  | nil => simp at h
  | cons a rest ih =>
    cases i with
    | zero =>
      simp only [List.get?_cons_zero, Option.some.injEq] at h
      subst h
      simp [List.countP_cons]
    | succ j =>
      simp only [List.get?_cons_succ] at h
      have := ih j h
      simp only [List.eraseIdx_cons_succ, List.countP_cons]
      omega

theorem AddInvariant_init (user : Option String) (store : Store) (product : Product) :
    AddInvariant (World.init user store product) := by
  simp [AddInvariant, pendingAdds, World.init]

theorem AddInvariant_settleTask (w : World) (i : Nat) (ok : Bool) (now : Nat) (t : Task)
    (ht : w.tasks.get? i = some t) (h : AddInvariant w) :
    AddInvariant (settleTask w i ok now t) := by
  obtain ⟨h1, h2⟩ := h
  have he := countP_eraseIdx w.tasks i t ht
  unfold pendingAdds at h1 h2
  cases t with
  | addAwaitGet uid product quantity =>
    simp only [Task.isAdd, if_true] at he
    have h0 : (w.tasks.eraseIdx i).countP Task.isAdd = 0 := by omega
    have hflag : w.detail.addingToCart = true := by
      cases hf : w.detail.addingToCart with
      | true => rfl
      | false => have := h2 hf; omega
    cases ok with
    | false =>
      simp [AddInvariant, pendingAdds, settleTask, addToCart_onGet, addToCart_failed,
        countP_spawn, h0]
    | true =>
      cases hq : addToCart_newQuantity (dbGet w.store uid (pathKey (some product.id))) quantity with
      | none =>
        simp [AddInvariant, pendingAdds, settleTask, addToCart_onGet, addToCart_failed,
          countP_spawn, h0, hq]
      | some nq =>
        cases hdef : product.hasUndefined with
        | true =>
          simp [AddInvariant, pendingAdds, settleTask, addToCart_onGet, addToCart_failed,
            countP_spawn, h0, hq, hdef]
        | false =>
          simp [AddInvariant, pendingAdds, settleTask, addToCart_onGet, countP_spawn, h0, hq,
            hdef, Task.isAdd, hflag]
  | addAwaitSet uid product quantity record =>
    simp only [Task.isAdd, if_true] at he
    have h0 : (w.tasks.eraseIdx i).countP Task.isAdd = 0 := by omega
    cases ok <;>
      simp [AddInvariant, pendingAdds, settleTask, addToCart_onSet, addToCart_failed,
        countP_spawn, h0]
  | updateAwait uid item patch =>
    simp only [Task.isAdd] at he
    have h0 : (w.tasks.eraseIdx i).countP Task.isAdd = w.tasks.countP Task.isAdd := by
      simpa using he
    simp only [AddInvariant, pendingAdds, settleTask, updateQuantity_settled, countP_spawn, h0]
    exact ⟨by simpa using h1, by simpa using h2⟩
  | removeAwait uid item =>
    simp only [Task.isAdd] at he
    have h0 : (w.tasks.eraseIdx i).countP Task.isAdd = w.tasks.countP Task.isAdd := by
      simpa using he
    have hr : (removeFromCart_settled ok w.cartScreen).task = none := by
      cases ok <;> rfl
    simp only [AddInvariant, pendingAdds, settleTask, countP_spawn, h0, hr]
    exact ⟨by simpa using h1, by simpa using h2⟩

theorem AddInvariant_step (w : World) (e : Event) (h : AddInvariant w) :
    AddInvariant (step w e) := by
  cases e with
  | pressIncrease => exact h
  | pressDecrease =>
    obtain ⟨h1, h2⟩ := h
    refine ⟨h1, fun hf => h2 ?_⟩
    simp only [step, decreaseQuantity] at hf
    split at hf <;> exact hf
  | pressAddToCart =>
    obtain ⟨h1, h2⟩ := h
    unfold pendingAdds at h1 h2
    cases hf : w.detail.addingToCart with
    | true =>
      simpa [AddInvariant, pendingAdds, step, pressAddToCart, hf, spawn] using h1
    | false =>
      have h0 := h2 hf
      cases hu : w.user with
      | none =>
        simp [AddInvariant, pendingAdds, step, pressAddToCart, addToCart_begin, hf, hu, spawn, h0]
      | some uid =>
        simp [AddInvariant, pendingAdds, step, pressAddToCart, addToCart_begin, hf, hu,
          countP_spawn, h0, Task.isAdd]
  | updateQuantity item newQty =>
    obtain ⟨h1, h2⟩ := h
    unfold pendingAdds at h1 h2
    cases hu : w.user with
    | none =>
      simp only [AddInvariant, pendingAdds, step, updateQuantity_begin, hu, spawn]
      exact ⟨h1, h2⟩
    | some uid =>
      by_cases hn : newQty ≤ 0
      · simp only [AddInvariant, pendingAdds, step, updateQuantity_begin, hu, hn, if_true,
          handleRemove, spawn]
        exact ⟨h1, h2⟩
      · simp only [AddInvariant, pendingAdds, step, updateQuantity_begin, hu, hn, if_false,
          countP_spawn, Task.isAdd]
        exact ⟨by simpa using h1, by simpa using h2⟩
  | removeFromCart item =>
    obtain ⟨h1, h2⟩ := h
    unfold pendingAdds at h1 h2
    cases hu : w.user with
    | none =>
      simp only [AddInvariant, pendingAdds, step, removeFromCart_begin, hu, spawn]
      exact ⟨h1, h2⟩
    | some uid =>
      simp only [AddInvariant, pendingAdds, step, removeFromCart_begin, hu, countP_spawn,
        Task.isAdd]
      exact ⟨by simpa using h1, by simpa using h2⟩
  | settle ok now =>
    simp only [step]
    cases ht : w.tasks.get? 0 with
    | none => exact h
    | some t => exact AddInvariant_settleTask w 0 ok now t ht h

theorem AddInvariant_run (events : List Event) (w : World) (h : AddInvariant w) :
    AddInvariant (run w events) := by
  induction events generalizing w with
  | nil => exact h
  | cons e rest ih => exact ih (step w e) (AddInvariant_step w e h)

/-! ## Merge on add -/

/-- C1, as stated, fails: product `A` is absent from the empty store and is
added with quantity `2 ^ 53` and then with quantity 1; both Adds succeed, and
the stored quantity is `2 ^ 53`, not `2 ^ 53 + 1`, which no double holds. -/
theorem add_add_quantity_counterexample :
    (addToCart (envOk 100) emptyStore (detailA 9007199254740992)).succeeded = true
      ∧ (addToCart (envOk 200) (addToCart (envOk 100) emptyStore
            (detailA 9007199254740992)).store (detailA 1)).succeeded = true
      ∧ (dbGet (addToCart (envOk 200) (addToCart (envOk 100) emptyStore
            (detailA 9007199254740992)).store (detailA 1)).store "u"
            (pathKey (some productA.id))).bind Item.quantity = some 9007199254740992
      ∧ (9007199254740992 : Int) ≠ 9007199254740992 + 1 := by
  decide

/-- C1, amended: for a product `p` absent from the user's cart and quantities
`q1 ≥ 1`, `q2 ≥ 1` with `q1 + q2 ≤ 2 ^ 53`, two successful non-concurrent runs
of `addToCart` for `p`, the first with `q1` and the second with `q2`, leave a
stored line item for `p` whose quantity is exactly `q1 + q2`. -/
theorem add_add_quantity (s : Store) (uid : String) (p : Product) (q1 q2 : Int)
    (env1 env2 : AddEnv) (d1 d2 : DetailState)
    (hu1 : env1.user = some uid) (hu2 : env2.user = some uid)
    (hd1 : d1.product = p ∧ d1.quantity = q1) (hd2 : d2.product = p ∧ d2.quantity = q2)
    (habsent : dbGet s uid (pathKey (some p.id)) = none)
    (hq1 : 1 ≤ q1) (hq2 : 1 ≤ q2) (hbound : q1 + q2 ≤ 2 ^ 53)
    (hs1 : (addToCart env1 s d1).succeeded = true)
    (hs2 : (addToCart env2 (addToCart env1 s d1).store d2).succeeded = true) :
    ∃ item, dbGet (addToCart env2 (addToCart env1 s d1).store d2).store uid (pathKey (some p.id))
              = some item
      ∧ item.quantity = some (q1 + q2) := by
  obtain ⟨hp1, hq1'⟩ := hd1
  obtain ⟨hp2, hq2'⟩ := hd2
  subst hp1 hq1' hq2'
  obtain ⟨uid1, nq1, hu1', hg1, hw1, hn1, hdef1⟩ := addToCart_of_succeeded env1 s d1 hs1
  have e1 : uid1 = uid := by rw [hu1] at hu1'; exact (Option.some.inj hu1').symm
  subst e1
  have hst1 := (addToCart_ok env1 s d1 uid1 nq1 hu1 hg1 hw1 hn1 hdef1).1
  rw [habsent] at hn1
  obtain ⟨uid2, nq2, hu2', hg2, hw2, hn2, hdef2⟩ :=
    addToCart_of_succeeded env2 (addToCart env1 s d1).store d2 hs2
  have e2 : uid2 = uid1 := by rw [hu2] at hu2'; exact (Option.some.inj hu2').symm
  subst e2
  have hst2 := (addToCart_ok env2 _ d2 uid2 nq2 hu2 hg2 hw2 hn2 hdef2).1
  rw [hst1, hp2, dbGet_dbSet_same] at hn2
  have hexact : jsAdd d1.quantity d2.quantity = d1.quantity + d2.quantity :=
    jsAdd_exact _ _ (by rw [abs_le]; constructor <;> omega)
      (by rw [abs_le]; constructor <;> omega) (by rw [abs_le]; constructor <;> omega)
  refine ⟨addToCart_record d1.product nq2 env2.now, ?_, ?_⟩
  · rw [hst2, hp2, dbGet_dbSet_same]
  · simp only [addToCart_newQuantity, Option.some.injEq] at hn1
    simp only [addToCart_newQuantity, addToCart_record, Option.map_some', Option.some.injEq] at hn2
    simp [addToCart_record, ← hn2, ← hn1, hexact]

/-- C1, amended, at a concrete input: product `A`, absent from the empty store,
added with quantity 2 and then with quantity 3. -/
theorem add_add_quantity_witness :
    ∃ item, dbGet (addToCart (envOk 200) (addToCart (envOk 100) emptyStore (detailA 2)).store
                (detailA 3)).store "u" (pathKey (some productA.id)) = some item
      ∧ item.quantity = some (2 + 3) :=
  add_add_quantity emptyStore "u" productA 2 3 (envOk 100) (envOk 200) (detailA 2) (detailA 3)
    rfl rfl ⟨rfl, rfl⟩ ⟨rfl, rfl⟩ rfl (by decide) (by decide) (by decide) (by decide)
    (by decide)

/-- C2, as stated, fails: product `A` is added at time 100 and again at time
200, both Adds succeed, and the stored `addedAt` is not the time of the first Add. -/
theorem add_add_addedAt_counterexample :
    (addToCart (envOk 100) emptyStore (detailA 2)).succeeded = true
      ∧ (addToCart (envOk 200) (addToCart (envOk 100) emptyStore (detailA 2)).store
            (detailA 3)).succeeded = true
      ∧ (dbGet (addToCart (envOk 200) (addToCart (envOk 100) emptyStore (detailA 2)).store
            (detailA 3)).store "u" (pathKey (some productA.id))).bind Item.addedAt
          ≠ some 100 := by
  decide

/-- C2, amended: every successful `addToCart` stamps the record with the clock
of that run, whether or not the item existed; so after two successful
non-concurrent Adds of `p`, the first at `env1.now` and the second at
`env2.now`, the stored `addedAt` is `env1.now` after the first Add and
`env2.now` after the second. -/
theorem add_add_addedAt (s : Store) (uid : String) (p : Product)
    (env1 env2 : AddEnv) (d1 d2 : DetailState)
    (hu1 : env1.user = some uid) (hu2 : env2.user = some uid)
    (hp1 : d1.product = p) (hp2 : d2.product = p)
    (hs1 : (addToCart env1 s d1).succeeded = true)
    (hs2 : (addToCart env2 (addToCart env1 s d1).store d2).succeeded = true) :
    (∃ item, dbGet (addToCart env1 s d1).store uid (pathKey (some p.id)) = some item
        ∧ item.addedAt = some env1.now)
      ∧ (∃ item, dbGet (addToCart env2 (addToCart env1 s d1).store d2).store uid
            (pathKey (some p.id)) = some item
          ∧ item.addedAt = some env2.now) := by
  subst hp1
  obtain ⟨uid1, nq1, hu1', hg1, hw1, hn1, hdef1⟩ := addToCart_of_succeeded env1 s d1 hs1
  have e1 : uid1 = uid := by rw [hu1] at hu1'; exact (Option.some.inj hu1').symm
  subst e1
  obtain ⟨uid2, nq2, hu2', hg2, hw2, hn2, hdef2⟩ :=
    addToCart_of_succeeded env2 (addToCart env1 s d1).store d2 hs2
  have e2 : uid2 = uid1 := by rw [hu2] at hu2'; exact (Option.some.inj hu2').symm
  subst e2
  have hst1 := (addToCart_ok env1 s d1 uid2 nq1 hu1 hg1 hw1 hn1 hdef1).1
  have hst2 := (addToCart_ok env2 _ d2 uid2 nq2 hu2 hg2 hw2 hn2 hdef2).1
  refine ⟨⟨addToCart_record d1.product nq1 env1.now, ?_, rfl⟩,
          ⟨addToCart_record d2.product nq2 env2.now, ?_, rfl⟩⟩
  · rw [hst1, dbGet_dbSet_same]
  · rw [hst2, hp2, dbGet_dbSet_same]

/-- C2, amended, at a concrete input: product `A` added at time 100 and again at
time 200. -/
theorem add_add_addedAt_witness :
    (∃ item, dbGet (addToCart (envOk 100) emptyStore (detailA 2)).store "u"
          (pathKey (some productA.id)) = some item
        ∧ item.addedAt = some (envOk 100).now)
      ∧ (∃ item, dbGet (addToCart (envOk 200) (addToCart (envOk 100) emptyStore
            (detailA 2)).store (detailA 3)).store "u" (pathKey (some productA.id)) = some item
          ∧ item.addedAt = some (envOk 200).now) :=
  add_add_addedAt emptyStore "u" productA (envOk 100) (envOk 200) (detailA 2) (detailA 3)
    rfl rfl rfl rfl (by decide) (by decide)

/-- C3, as stated, fails: the cart of user `u` holds `2 ^ 53` units of product
`A` and 1 unit is added; the Add succeeds and the stored quantity is `2 ^ 53`,
not `2 ^ 53 + 1`. -/
theorem add_writes_quantity_counterexample :
    (dbGet (storeA 9007199254740992) "u" (pathKey (some productA.id))).bind Item.quantity
        = some 9007199254740992
      ∧ (addToCart (envOk 200) (storeA 9007199254740992) (detailA 1)).succeeded = true
      ∧ (dbGet (addToCart (envOk 200) (storeA 9007199254740992) (detailA 1)).store "u"
            (pathKey (some productA.id))).bind Item.quantity = some 9007199254740992
      ∧ (9007199254740992 : Int) ≠ 9007199254740992 + 1 := by
  decide

/-- C3, amended: a successful `addToCart` of quantity `d.quantity` for product
`d.product` writes the line item with the double sum of `e` and `d.quantity`
when the read finds an existing item of quantity `e`, which is exactly
`e + d.quantity` when `e`, `d.quantity` and their sum are at most `2 ^ 53` in
magnitude, and with quantity `d.quantity` when the read finds no item; the
written record is the one passed to `set` and the one stored afterwards. -/
theorem add_writes_quantity (env : AddEnv) (s : Store) (d : DetailState) (uid : String)
    (hu : env.user = some uid) (hs : (addToCart env s d).succeeded = true) :
    (∀ existing e, dbGet s uid (pathKey (some d.product.id)) = some existing →
        existing.quantity = some e →
        ∃ item, item.quantity = some (jsAdd e d.quantity)
          ∧ (|e| ≤ 2 ^ 53 → |d.quantity| ≤ 2 ^ 53 → |e + d.quantity| ≤ 2 ^ 53 →
              item.quantity = some (e + d.quantity))
          ∧ Effect.set uid (pathKey (some d.product.id)) item ∈ (addToCart env s d).effects
          ∧ dbGet (addToCart env s d).store uid (pathKey (some d.product.id)) = some item)
      ∧ (dbGet s uid (pathKey (some d.product.id)) = none →
        ∃ item, item.quantity = some d.quantity
          ∧ Effect.set uid (pathKey (some d.product.id)) item ∈ (addToCart env s d).effects
          ∧ dbGet (addToCart env s d).store uid (pathKey (some d.product.id)) = some item) := by
  obtain ⟨uid', nq, hu', hg, hw, hn, hdef⟩ := addToCart_of_succeeded env s d hs
  have e1 : uid' = uid := by rw [hu] at hu'; exact (Option.some.inj hu').symm
  subst e1
  obtain ⟨hst, -, heff⟩ := addToCart_ok env s d uid' nq hu hg hw hn hdef
  constructor
  · intro existing e hex hqe
    rw [hex] at hn
    simp only [addToCart_newQuantity, hqe, Option.map_some', Option.some.injEq] at hn
    refine ⟨addToCart_record d.product nq env.now, ?_, ?_, ?_, ?_⟩
    · simp [addToCart_record, ← hn]
    · intro he hq hbound
      simp [addToCart_record, ← hn, jsAdd_exact e d.quantity he hq hbound]
    · rw [heff]; simp
    · rw [hst, dbGet_dbSet_same]
  · intro hnone
    rw [hnone] at hn
    simp only [addToCart_newQuantity, Option.some.injEq] at hn
    refine ⟨addToCart_record d.product nq env.now, ?_, ?_, ?_⟩
    · simp [addToCart_record, ← hn]
    · rw [heff]; simp
    · rw [hst, dbGet_dbSet_same]

/-- C3, amended, at a concrete input: 3 units of product `A` are added to a cart
that holds 2 of them. -/
theorem add_writes_quantity_witness :
    ∃ item, item.quantity = some (jsAdd 2 (detailA 3).quantity)
      ∧ (|(2 : Int)| ≤ 2 ^ 53 → |(detailA 3).quantity| ≤ 2 ^ 53 →
          |2 + (detailA 3).quantity| ≤ 2 ^ 53 →
          item.quantity = some (2 + (detailA 3).quantity))
      ∧ Effect.set "u" (pathKey (some (detailA 3).product.id)) item
          ∈ (addToCart (envOk 200) (storeA 2) (detailA 3)).effects
      ∧ dbGet (addToCart (envOk 200) (storeA 2) (detailA 3)).store "u"
          (pathKey (some (detailA 3).product.id)) = some item :=
  (add_writes_quantity (envOk 200) (storeA 2) (detailA 3) "u" rfl (by decide)).1
    (itemA 2) 2 rfl rfl

/-! ## Set quantity and remove -/

/-- C4, as stated, fails: the cart of user `u` holds 2 units of product `A`;
`updateQuantity(item, 0)` only opens the `Remove Item` dialog, issues no
repository call, and the line item is still stored, also after the user
answers Cancel. -/
theorem updateQuantity_zero_counterexample :
    (dbGet (storeA 2) "u" (pathKey (itemA 2).id)).isSome = true
      ∧ (updateQuantity (some "u") true (storeA 2) (itemA 2) 0 (cartA 2)).effects
          = [.alertRemoveItem (itemA 2)]
      ∧ (dbGet (updateQuantity (some "u") true (storeA 2) (itemA 2) 0 (cartA 2)).store "u"
          (pathKey (itemA 2).id)).isSome = true
      ∧ (dbGet (answerRemoveItem false (some "u") true
            (updateQuantity (some "u") true (storeA 2) (itemA 2) 0 (cartA 2)).store
            (itemA 2) (cartA 2)).store "u" (pathKey (itemA 2).id)).isSome = true :=
  ⟨by decide, rfl, by decide, by decide⟩

/-- C4, amended: for every line item and every `newQty ≤ 0`, `updateQuantity`
by a signed-in user does exactly what `handleRemove` does: it opens the
`Remove Item` dialog, issues no repository call and leaves the store as it
was. The line item is absent once the user answers Remove and the `remove`
resolves; after Cancel the store is unchanged. -/
theorem updateQuantity_nonpos (uid : String) (ok : Bool) (s : Store) (item : Item)
    (newQty : Int) (c : CartState) (hn : newQty ≤ 0) :
    updateQuantity_begin (some uid) item newQty c = handleRemove item c
      ∧ (updateQuantity (some uid) ok s item newQty c).store = s
      ∧ (updateQuantity (some uid) ok s item newQty c).effects = [.alertRemoveItem item]
      ∧ (answerRemoveItem false (some uid) ok
            (updateQuantity (some uid) ok s item newQty c).store item c).store = s
      ∧ dbGet (answerRemoveItem true (some uid) true
            (updateQuantity (some uid) ok s item newQty c).store item c).store uid
          (pathKey item.id) = none := by
  have hb : updateQuantity_begin (some uid) item newQty c = handleRemove item c := by
    simp [updateQuantity_begin, hn]
  have hst : (updateQuantity (some uid) ok s item newQty c).store = s := by
    simp [updateQuantity, hb, handleRemove]
  refine ⟨hb, hst, ?_, ?_, ?_⟩
  · simp [updateQuantity, hb, handleRemove]
  · simp [answerRemoveItem, hst]
  · rw [hst]
    simp [answerRemoveItem, removeFromCart, removeFromCart_begin, dbGet_dbRemove_same]

/-- C4, amended, at a concrete input: `updateQuantity(item, -1)` on a cart that
holds 2 units of product `A`. -/
theorem updateQuantity_nonpos_witness :
    updateQuantity_begin (some "u") (itemA 2) (-1) (cartA 2) = handleRemove (itemA 2) (cartA 2)
      ∧ (updateQuantity (some "u") true (storeA 2) (itemA 2) (-1) (cartA 2)).store = storeA 2
      ∧ (updateQuantity (some "u") true (storeA 2) (itemA 2) (-1) (cartA 2)).effects
          = [.alertRemoveItem (itemA 2)]
      ∧ (answerRemoveItem false (some "u") true
            (updateQuantity (some "u") true (storeA 2) (itemA 2) (-1) (cartA 2)).store
            (itemA 2) (cartA 2)).store = storeA 2
      ∧ dbGet (answerRemoveItem true (some "u") true
            (updateQuantity (some "u") true (storeA 2) (itemA 2) (-1) (cartA 2)).store
            (itemA 2) (cartA 2)).store "u" (pathKey (itemA 2).id) = none :=
  updateQuantity_nonpos "u" true (storeA 2) (itemA 2) (-1) (cartA 2) (by decide)

/-- C5: for every line item stored under its own id and every `newQty ≥ 1`, a
successful `updateQuantity` called with the stored record leaves the stored
record equal to the old one with only `quantity` replaced by `newQty`: the
quantity is set, not added, and `id`, `title`, `price`, `image`, `category`
and `addedAt` are unchanged. -/
theorem updateQuantity_overwrites (uid : String) (s : Store) (item : Item) (newQty : Int)
    (c : CartState) (hstored : dbGet s uid (pathKey item.id) = some item) (hn : 1 ≤ newQty) :
    ∃ stored, dbGet (updateQuantity (some uid) true s item newQty c).store uid (pathKey item.id)
          = some stored
      ∧ stored = { item with quantity := some newQty }
      ∧ stored.quantity = some newQty
      ∧ stored.id = item.id ∧ stored.title = item.title ∧ stored.price = item.price
      ∧ stored.image = item.image ∧ stored.category = item.category
      ∧ stored.addedAt = item.addedAt := by
  have hpos : ¬ newQty ≤ 0 := by omega
  refine ⟨{ item with quantity := some newQty }, ?_, rfl, rfl, rfl, rfl, rfl, rfl, rfl, rfl⟩
  have hst : (updateQuantity (some uid) true s item newQty c).store
      = dbUpdate s uid (pathKey item.id) (updateQuantity_patch item newQty) := by
    simp [updateQuantity, updateQuantity_begin, hpos]
  rw [hst, dbGet_dbUpdate_same, hstored]
  simp only [Item.merge_self]
  rfl

/-- C5 at a concrete input: the stored 2 units of product `A` are set to 7. -/
theorem updateQuantity_overwrites_witness :
    ∃ stored, dbGet (updateQuantity (some "u") true (storeA 2) (itemA 2) 7 (cartA 2)).store "u"
          (pathKey (itemA 2).id) = some stored
      ∧ stored = { itemA 2 with quantity := some 7 }
      ∧ stored.quantity = some 7
      ∧ stored.id = (itemA 2).id ∧ stored.title = (itemA 2).title
      ∧ stored.price = (itemA 2).price
      ∧ stored.image = (itemA 2).image ∧ stored.category = (itemA 2).category
      ∧ stored.addedAt = (itemA 2).addedAt :=
  updateQuantity_overwrites "u" (storeA 2) (itemA 2) 7 (cartA 2) rfl (by decide)

/-- C6: for every store and every line item, a successful `removeFromCart` by a
signed-in user leaves no line item under that product id in the user's cart,
whatever the record held before. -/
theorem removeFromCart_removes (uid : String) (s : Store) (item : Item) (c : CartState) :
    dbGet (removeFromCart (some uid) true s item c).store uid (pathKey item.id) = none := by
  simp [removeFromCart, removeFromCart_begin, dbGet_dbRemove_same]

/-- C7: for every cart and every product absent from it, a `removeFromCart`
whose repository call resolves reports no error and leaves the store and the
screen unchanged; and on every store, `removeFromCart` applied twice gives the
same store as applied once. -/
theorem removeFromCart_idempotent (uid : String) (s : Store) (item : Item) (c : CartState) :
    (dbGet s uid (pathKey item.id) = none →
        (removeFromCart (some uid) true s item c).store = s
          ∧ (removeFromCart (some uid) true s item c).screen = c
          ∧ (removeFromCart (some uid) true s item c).effects = [.remove uid (pathKey item.id)]
          ∧ (removeFromCart (some uid) true s item c).effects.any Effect.isError = false)
      ∧ (removeFromCart (some uid) true (removeFromCart (some uid) true s item c).store item c).store
          = (removeFromCart (some uid) true s item c).store := by
  constructor
  · intro habsent
    simp [removeFromCart, removeFromCart_begin, removeFromCart_settled,
      dbRemove_of_absent s uid _ habsent, Effect.isError]
  · simp [removeFromCart, removeFromCart_begin, dbRemove_dbRemove]

/-- C7 at a concrete input: product `A` is removed from the empty store. -/
theorem removeFromCart_idempotent_witness :
    (removeFromCart (some "u") true emptyStore (itemA 2) (cartA 2)).store = emptyStore
      ∧ (removeFromCart (some "u") true emptyStore (itemA 2) (cartA 2)).screen = cartA 2
      ∧ (removeFromCart (some "u") true emptyStore (itemA 2) (cartA 2)).effects
          = [.remove "u" (pathKey (itemA 2).id)]
      ∧ (removeFromCart (some "u") true emptyStore (itemA 2) (cartA 2)).effects.any
          Effect.isError = false :=
  (removeFromCart_idempotent "u" emptyStore (itemA 2) (cartA 2)).1 rfl

/-! ## Pending operations -/

/-- C8, as stated, fails: in the session `worldA` an Add of 3 units of `A` is
pending when `updateQuantity(item, 7)` is called for the same product. The
call is not rejected: it issues its `update`, the update is applied to the
store (quantity 7 once it has settled), and no error is reported. -/
theorem updateQuantity_during_add_counterexample :
    (run worldA [.pressAddToCart]).tasks = [.addAwaitGet "u" productA 3]
      ∧ Task.key (.addAwaitGet "u" productA 3) = pathKey (itemA 2).id
      ∧ (run worldA [.pressAddToCart, .updateQuantity (itemA 2) 7]).log
          = [.get "u" (pathKey (itemA 2).id),
             .update "u" (pathKey (itemA 2).id) (updateQuantity_patch (itemA 2) 7)]
      ∧ (dbGet (run worldA [.pressAddToCart, .updateQuantity (itemA 2) 7, .settle true 200,
            .settle true 220]).store "u" (pathKey (itemA 2).id)).bind Item.quantity = some 7
      ∧ (run worldA [.pressAddToCart, .updateQuantity (itemA 2) 7, .settle true 200,
            .settle true 220, .settle true 250]).log.any Effect.isError = false :=
  ⟨rfl, rfl, rfl, by decide, by decide⟩

/-- C8, amended: `updateQuantity(item, x)` with `x ≥ 1`, called by the signed-in
user while an Add of the same product is pending, is not rejected: it issues
its `update` whatever is pending, the update is applied, and no error is
reported. It does not alter the eventual result of the pending Add: the read
of the Add was issued first and is answered first, so the Add writes the
record it would have written without the `updateQuantity`, and that write
replaces the record the update left. -/
theorem updateQuantity_during_add (w : World) (uid : String) (item : Item) (x nq : Int)
    (t1 t2 t3 : Nat)
    (hu : w.user = some uid) (htasks : w.tasks = []) (hidle : w.detail.addingToCart = false)
    (hkey : pathKey item.id = pathKey (some w.detail.product.id)) (hx : 1 ≤ x)
    (hdef : w.detail.product.hasUndefined = false)
    (hnq : addToCart_newQuantity (dbGet w.store uid (pathKey item.id)) w.detail.quantity
      = some nq) :
    (run w [.pressAddToCart]).tasks = [.addAwaitGet uid w.detail.product w.detail.quantity]
      ∧ (run w [.pressAddToCart, .updateQuantity item x]).tasks
          = [.addAwaitGet uid w.detail.product w.detail.quantity,
             .updateAwait uid item (updateQuantity_patch item x)]
      ∧ (∃ stored, dbGet (run w [.pressAddToCart, .updateQuantity item x, .settle true t1,
              .settle true t2]).store uid (pathKey item.id) = some stored
          ∧ stored.quantity = some x)
      ∧ (run w [.pressAddToCart, .updateQuantity item x, .settle true t1, .settle true t2,
            .settle true t3]).log
          = w.log ++ [.get uid (pathKey item.id),
                      .update uid (pathKey item.id) (updateQuantity_patch item x),
                      .set uid (pathKey item.id) (addToCart_record w.detail.product nq t1),
                      .alertSuccess w.detail.quantity]
      ∧ dbGet (run w [.pressAddToCart, .updateQuantity item x, .settle true t1,
            .settle true t2, .settle true t3]).store uid (pathKey item.id)
          = some (addToCart_record w.detail.product nq t1)
      ∧ dbGet (run w [.pressAddToCart, .settle true t1, .settle true t3]).store uid
            (pathKey item.id)
          = some (addToCart_record w.detail.product nq t1) := by
  have hpos : ¬ x ≤ 0 := by omega
  rw [hkey] at hnq
  refine ⟨?_, ?_, ?_, ?_, ?_, ?_⟩
  · simp [run, step, pressAddToCart, addToCart_begin, spawn, hu, htasks, hidle]
  · simp [run, step, pressAddToCart, addToCart_begin, updateQuantity_begin, spawn, hu, htasks,
      hidle, hpos]
  · obtain ⟨stored, hget, hqty⟩ := dbGet_dbUpdate_quantity w.store uid (pathKey item.id) item x
    refine ⟨stored, ?_, hqty⟩
    simpa [run, step, settleTask, pressAddToCart, addToCart_begin, addToCart_onGet,
      updateQuantity_begin, updateQuantity_settled, spawn, hu, htasks, hidle, hpos, hnq, hdef]
      using hget
  · simp [run, step, settleTask, pressAddToCart, addToCart_begin, addToCart_onGet,
      addToCart_onSet, updateQuantity_begin, updateQuantity_settled, spawn, hu, htasks, hidle,
      hpos, hnq, hdef, hkey]
  · simp [run, step, settleTask, pressAddToCart, addToCart_begin, addToCart_onGet,
      addToCart_onSet, updateQuantity_begin, updateQuantity_settled, spawn, hu, htasks, hidle,
      hpos, hnq, hdef, hkey, dbGet_dbSet_same]
  · simp [run, step, settleTask, pressAddToCart, addToCart_begin, addToCart_onGet,
      addToCart_onSet, spawn, hu, htasks, hidle, hnq, hdef, hkey, dbGet_dbSet_same]

/-- C8, amended, at a concrete input: the session `worldA` and
`updateQuantity(item, 7)`; the Add of 3 units ends with quantity 5 with and
without it. -/
theorem updateQuantity_during_add_witness :
    dbGet (run worldA [.pressAddToCart, .updateQuantity (itemA 2) 7, .settle true 200,
          .settle true 220, .settle true 250]).store "u" (pathKey (itemA 2).id)
        = some (addToCart_record worldA.detail.product 5 200)
      ∧ dbGet (run worldA [.pressAddToCart, .settle true 200, .settle true 250]).store "u"
          (pathKey (itemA 2).id)
        = some (addToCart_record worldA.detail.product 5 200) :=
  (updateQuantity_during_add worldA "u" (itemA 2) 7 5 200 220 250 rfl rfl rfl rfl (by decide)
    rfl rfl).2.2.2.2

/-- C9, as stated, fails: on the detail screen of product `A` with an Add
pending, a press on `Add to Cart` reports no error at all (the button is
disabled and the press is dropped), and `addToCart` itself has no guard: called
directly in that state it issues its `get`. -/
theorem pressAddToCart_while_adding_counterexample :
    detailAdding.addingToCart = true
      ∧ (pressAddToCart (some "u") detailAdding).effects.any Effect.isError = false
      ∧ (addToCart_begin (some "u") detailAdding).effects
          = [.get "u" (pathKey (some productA.id))] :=
  ⟨rfl, by decide, rfl⟩

/-- C9, amended: a press on `Add to Cart` while `addingToCart` is true is
dropped by the disabled button: it performs no repository read or write,
starts no invocation, changes no state and reports no error. So in every
session, after every sequence of events, at most one invocation of `addToCart`
of the product detail screen is pending. -/
theorem pressAddToCart_while_adding (user : Option String) (store : Store) (product : Product)
    (events : List Event) :
    (∀ d : DetailState, d.addingToCart = true →
        pressAddToCart user d = { detail := d, task := none, effects := [] })
      ∧ pendingAdds (run (World.init user store product) events) ≤ 1 := by
  constructor
  · intro d hd
    simp [pressAddToCart, hd]
  · exact (AddInvariant_run events _ (AddInvariant_init user store product)).1

/-- C9, amended, at a concrete input: the detail screen of product `A` with an
Add pending. -/
theorem pressAddToCart_while_adding_witness :
    pressAddToCart (some "u") detailAdding
      = { detail := detailAdding, task := none, effects := [] } :=
  (pressAddToCart_while_adding (some "u") emptyStore productA []).1 detailAdding rfl

/-! ## No signed-in user -/

/-- C10: with no signed-in user, `addToCart`, `updateQuantity` and
`removeFromCart` each return without any repository call, without suspending
and without touching a pending flag, and the store is unchanged. -/
theorem unauthenticated_no_repo_call (s : Store) (d : DetailState) (c : CartState)
    (item : Item) (newQty : Int) (getOk setOk ok : Bool) (now : Nat) :
    ((addToCart { user := none, getOk := getOk, now := now, setOk := setOk } s d).store = s
        ∧ (addToCart { user := none, getOk := getOk, now := now, setOk := setOk } s d).detail = d
        ∧ (addToCart { user := none, getOk := getOk, now := now, setOk := setOk } s d).effects.any
            Effect.isRepoCall = false
        ∧ (addToCart_begin none d).task = none)
      ∧ ((updateQuantity none ok s item newQty c).store = s
        ∧ (updateQuantity none ok s item newQty c).screen = c
        ∧ (updateQuantity none ok s item newQty c).effects = []
        ∧ (updateQuantity_begin none item newQty c).task = none)
      ∧ ((removeFromCart none ok s item c).store = s
        ∧ (removeFromCart none ok s item c).screen = c
        ∧ (removeFromCart none ok s item c).effects = []
        ∧ (removeFromCart_begin none item c).task = none) := by
  refine ⟨⟨rfl, rfl, ?_, rfl⟩, ⟨rfl, rfl, rfl, rfl⟩, ⟨rfl, rfl, rfl, rfl⟩⟩
  simp [addToCart, addToCart_begin, Effect.isRepoCall]

/-! ## Aggregates -/

theorem foldl_quantity_none (cart : List Item) :
    cart.foldl
        (fun total item =>
          match total, item.quantity with
          | some t, some quantity => some (jsAdd t quantity)
          | _, _ => none)
        none
      = none := by
  induction cart with
  | nil => rfl
  | cons item rest ih => simpa [List.foldl_cons] using ih

theorem foldl_quantity (cart : List Item) (a : Int)
    (h : ∀ item ∈ cart, ∃ q, item.quantity = some q ∧ |q| ≤ 2 ^ 53)
    (hbound : ∀ k, |a + sumQuantity (cart.take k)| ≤ 2 ^ 53) :
    cart.foldl
        (fun total item =>
          match total, item.quantity with
          | some t, some quantity => some (jsAdd t quantity)
          | _, _ => none)
        (some a)
      = some (a + sumQuantity cart) := by
  induction cart generalizing a with
  | nil => simp [sumQuantity]
  | cons item rest ih =>
    obtain ⟨q, hq, hqb⟩ := h item (List.mem_cons_self _ _)
    have hrest : ∀ i ∈ rest, ∃ q, i.quantity = some q ∧ |q| ≤ 2 ^ 53 :=
      fun i hi => h i (List.mem_cons_of_mem _ hi)
    have ha : |a| ≤ 2 ^ 53 := by
      have := hbound 0
      simpa [sumQuantity] using this
    have hstep : ∀ k, a + sumQuantity ((item :: rest).take (k + 1))
        = a + q + sumQuantity (rest.take k) := by
      intro k
      simp [sumQuantity, List.take_succ_cons, List.filterMap_cons, hq, add_assoc]
    have hfirst : |a + q| ≤ 2 ^ 53 := by
      have := hbound 1
      rw [hstep 0] at this
      simpa [sumQuantity] using this
    have hrestbound : ∀ k, |a + q + sumQuantity (rest.take k)| ≤ 2 ^ 53 := by
      intro k
      rw [← hstep k]
      exact hbound (k + 1)
    simp only [List.foldl_cons, hq, jsAdd_exact a q ha hqb hfirst]
    rw [ih (a + q) hrest hrestbound]
    simp [sumQuantity, List.filterMap_cons, hq, add_assoc]

theorem foldl_quantity_missing (cart : List Item) (a : Option Int)
    (h : ∃ item ∈ cart, item.quantity = none) :
    cart.foldl
        (fun total item =>
          match total, item.quantity with
          | some t, some quantity => some (jsAdd t quantity)
          | _, _ => none)
        a
      = none := by
  induction cart generalizing a with
  | nil =>
    obtain ⟨item, hmem, -⟩ := h
    cases hmem
  | cons first rest ih =>
    obtain ⟨item, hmem, hnone⟩ := h
    rcases List.mem_cons.mp hmem with heq | hrest
    · subst heq
      cases a with
      | none => exact foldl_quantity_none _
      | some t =>
        simp only [List.foldl_cons, hnone]
        exact foldl_quantity_none _
    · simp only [List.foldl_cons]
      exact ih _ ⟨item, hrest, hnone⟩

/-- C11, as stated, fails: reconciliation keeps a stored record that has no
`quantity`, and on that cart `getTotalItems` returns `NaN`, not the sum 2 of
the quantity fields; and on a cart with quantities `2 ^ 53` and 1 it returns
`2 ^ 53`, not their sum. -/
theorem getTotalItems_counterexample :
    (viewOf storeNoQuantity).cart = [itemA 2, itemNoQuantity]
      ∧ sumQuantity (viewOf storeNoQuantity).cart = 2
      ∧ getTotalItems (viewOf storeNoQuantity) = none
      ∧ getTotalItems cartHuge = some 9007199254740992
      ∧ sumQuantity cartHuge.cart = 9007199254740992 + 1 :=
  ⟨rfl, by decide, by decide, by decide, by decide⟩

/-- C11, amended: for every cart whose line items all have a quantity and
whose quantities and running sums of quantities stay within `2 ^ 53` in
magnitude, `getTotalItems` returns exactly the sum of the quantity fields of
all line items; it returns 0 for the empty cart; and it returns `NaN` as soon
as a line item has no quantity. -/
theorem getTotalItems_sum (c : CartState) :
    ((∀ item ∈ c.cart, ∃ q, item.quantity = some q ∧ |q| ≤ 2 ^ 53) →
        (∀ k, |sumQuantity (c.cart.take k)| ≤ 2 ^ 53) →
        getTotalItems c = some (sumQuantity c.cart))
      ∧ (c.cart = [] → getTotalItems c = some 0)
      ∧ ((∃ item ∈ c.cart, item.quantity = none) → getTotalItems c = none) := by
  refine ⟨fun h hbound => ?_, fun hnil => ?_, fun hmissing => ?_⟩
  · unfold getTotalItems
    rw [foldl_quantity c.cart 0 h (by simpa using hbound)]
    simp
  · unfold getTotalItems
    rw [hnil]
    rfl
  · exact foldl_quantity_missing c.cart (some 0) hmissing

/-- C11, amended, at a concrete input: a cart with quantities 2, 5 and 1. -/
theorem getTotalItems_sum_witness :
    getTotalItems cartThree = some (sumQuantity cartThree.cart) :=
  (getTotalItems_sum cartThree).1
    (by
      intro item hitem
      simp only [cartThree, List.mem_cons, List.mem_singleton, List.not_mem_nil,
        or_false] at hitem
      rcases hitem with h | h | h <;> subst h <;> exact ⟨_, rfl, by norm_num⟩)
    (by
      intro k
      rcases k with _ | _ | _ | _ | k <;> simp [cartThree, sumQuantity, itemA, addToCart_record])

/-! ## The total price -/

theorem roundDouble_tenth : roundDouble (1 / 10) = priceTenth := by
  have h : (1 / 10 : ℚ) = ((1 : ℕ) : ℚ) / ((10 : ℕ) : ℚ) := by norm_num
  rw [h, roundDouble_div _ _ (by norm_num) (by norm_num) (by norm_num)]
  have hc : roundCore 1 10 = ⟨7205759403792794, 56, 0⟩ := by decide
  rw [hc]
  simp only [priceTenth]
  norm_num

theorem roundDouble_tenth_times_three :
    roundDouble (priceTenth * ((3 : Int) : ℚ)) = 1351079888211149 / 4503599627370496 := by
  have h : priceTenth * ((3 : Int) : ℚ)
      = ((10808639105689191 : ℕ) : ℚ) / ((36028797018963968 : ℕ) : ℚ) := by
    simp only [priceTenth]; norm_num
  rw [h, roundDouble_div _ _ (by norm_num) (by norm_num) (by norm_num)]
  have hc : roundCore 10808639105689191 36028797018963968 = ⟨5404319552844596, 54, 0⟩ := by
    decide
  rw [hc]
  norm_num

theorem roundDouble_three_tenths :
    roundDouble (1351079888211149 / 4503599627370496)
      = 1351079888211149 / 4503599627370496 := by
  have h : (1351079888211149 / 4503599627370496 : ℚ)
      = ((1351079888211149 : ℕ) : ℚ) / ((4503599627370496 : ℕ) : ℚ) := by norm_num
  rw [h, roundDouble_div _ _ (by norm_num) (by norm_num) (by norm_num)]
  have hc : roundCore 1351079888211149 4503599627370496 = ⟨5404319552844596, 54, 0⟩ := by
    decide
  rw [hc]
  norm_num

theorem roundDouble_eighth (x : ℚ) (h : x = 1 / 8) : roundDouble x = x := by
  have hx : x = ((1 : ℕ) : ℚ) / ((8 : ℕ) : ℚ) := by rw [h]; norm_num
  rw [hx, roundDouble_div _ _ (by norm_num) (by norm_num) (by norm_num)]
  have hc : roundCore 1 8 = ⟨4503599627370496, 55, 0⟩ := by decide
  rw [hc]
  norm_num

theorem foldl_price (cart : List Item) (t : ℚ) (ht : roundDouble t = t) (h : exactSums t cart) :
    cart.foldl
        (fun total item =>
          match total, item.price, item.quantity with
          | some t, some price, some quantity =>
            some (jsAddNumber t (jsMulNumber price quantity))
          | _, _, _ => none)
        (some t)
      = some (t + sumPrice cart) := by
  induction cart generalizing t with
  | nil => simp [sumPrice]
  | cons item rest ih =>
    obtain ⟨price, quantity, hp, hq, hprice, hquantity, hmul, hadd, hrest⟩ := h
    have hstep : jsAddNumber t (jsMulNumber price quantity) = t + price * quantity := by
      simp only [jsAddNumber, jsMulNumber, hprice, hquantity, hmul, ht, hadd]
    simp only [List.foldl_cons, hp, hq, hstep]
    rw [ih _ hadd hrest]
    simp [sumPrice, List.filterMap_cons, subtotal, hp, hq, add_assoc]

/-- C12, as stated, fails: on a cart of one line item, 3 units at the price
0.1, `getTotalPrice` returns 0.30000000000000004, the double nearest to the
product of 3 and the double nearest to 0.1; that is neither the sum 0.3 of
`price * quantity` nor the exact product of 3 and the double nearest to
0.1. -/
theorem getTotalPrice_counterexample :
    getTotalPrice cartTenth = some (1351079888211149 / 4503599627370496)
      ∧ sumPrice cartTenth.cart = 3 / 10
      ∧ (1351079888211149 / 4503599627370496 : ℚ) ≠ 3 / 10
      ∧ (1351079888211149 / 4503599627370496 : ℚ) ≠ priceTenth * 3 := by
  refine ⟨?_, ?_, by norm_num, by simp only [priceTenth]; norm_num⟩
  · have h3 : roundInt 3 = 3 := by decide
    simp only [getTotalPrice, cartTenth, List.foldl_cons, List.foldl_nil, itemA,
      addToCart_record, jsAddNumber, jsMulNumber]
    rw [roundDouble_tenth, h3, roundDouble_tenth_times_three, roundDouble_three_tenths,
      roundDouble_zero, zero_add, roundDouble_three_tenths]
  · simp only [sumPrice, cartTenth, List.filterMap_cons, List.filterMap_nil, subtotal, itemA,
      addToCart_record]
    norm_num

/-- C12, amended: `getTotalPrice` adds the products `price * quantity` from
left to right in double arithmetic; for every cart, of any length, in which
every price, every quantity, every product `price * quantity` and every
partial sum is a double, it returns exactly the sum over all line items of
`price * quantity`; nothing else is rounded, in particular not to currency
precision. -/
theorem getTotalPrice_exact (c : CartState) (h : exactSums 0 c.cart) :
    getTotalPrice c = some (sumPrice c.cart) := by
  unfold getTotalPrice
  rw [foldl_price c.cart 0 roundDouble_zero h]
  simp

/-- C12, amended, at a concrete input: 1 unit at the price 0.125; the total is
0.125, with its three decimals. -/
theorem getTotalPrice_exact_witness :
    getTotalPrice cartEighth = some (sumPrice cartEighth.cart) :=
  getTotalPrice_exact cartEighth
    ⟨1 / 8, 1, rfl, rfl, roundDouble_eighth _ rfl, by decide,
      roundDouble_eighth _ (by norm_num), roundDouble_eighth _ (by norm_num), trivial⟩

/-! ## Reconciliation -/

/-- C13, as stated, fails: the snapshot holds one valid entry and one entry
without `title`; the reconciled cart holds both entries, the malformed one
included, not the one valid entry alone. -/
theorem reconcile_malformed_counterexample :
    (itemA 2).isComplete = true
      ∧ itemNoTitle.isComplete = false
      ∧ (loadCart_onSnapshot snapshotMalformed CartState.init).cart = [itemA 2, itemNoTitle]
      ∧ (loadCart_onSnapshot snapshotMalformed CartState.init).cart.length ≠ 1 :=
  ⟨by decide, by decide, rfl, by decide⟩

/-- C13, amended: for every snapshot, made of any number of valid entries and
any malformed entries, reconciliation produces a local cart of every entry of
the snapshot, in order, malformed entries included: nothing is validated,
nothing is dropped, and the callback always returns a state. -/
theorem reconcile_keeps_every_entry (data : Node Item) (c : CartState) :
    (loadCart_onSnapshot data c).cart = data.map Prod.snd
      ∧ (loadCart_onSnapshot data c).cart.length = data.length
      ∧ (∀ key item, (key, item) ∈ data → item ∈ (loadCart_onSnapshot data c).cart) := by
  have h : (loadCart_onSnapshot data c).cart = data.map Prod.snd := by
    cases data <;> rfl
  refine ⟨h, by rw [h, List.length_map], fun key item hmem => ?_⟩
  rw [h]
  exact List.mem_map.mpr ⟨(key, item), hmem, rfl⟩

/-- C13, amended, at a concrete input: the malformed entry of `snapshotMalformed`
is in the reconciled cart. -/
theorem reconcile_keeps_every_entry_witness :
    itemNoTitle ∈ (loadCart_onSnapshot snapshotMalformed CartState.init).cart :=
  (reconcile_keeps_every_entry snapshotMalformed CartState.init).2.2 (pathKey itemNoTitle.id)
    itemNoTitle (List.mem_cons_of_mem _ (List.mem_singleton.mpr rfl))

/-- C14: for every previous local cart and every snapshot, the local cart after
reconciliation is the list of the snapshot's line items (the empty cart when
the snapshot holds no data), whatever the previous state was; and after a
sequence of snapshots the local cart is the reconciliation of the last one. -/
theorem reconcile_last_snapshot_wins (data : Node Item) (c c' : CartState)
    (earlier : List (Node Item)) :
    (loadCart_onSnapshot data c).cart = (loadCart_onSnapshot data c').cart
      ∧ (loadCart_onSnapshot data c).cart = data.map Prod.snd
      ∧ (loadCart_onSnapshot [] c).cart = []
      ∧ ((earlier ++ [data]).foldl (fun state d => loadCart_onSnapshot d state) c).cart
          = (loadCart_onSnapshot data c').cart := by
  have h : ∀ x : CartState, (loadCart_onSnapshot data x).cart = data.map Prod.snd := by
    intro x
    cases data <;> rfl
  refine ⟨by rw [h c, h c'], h c, rfl, ?_⟩
  rw [List.foldl_append]
  simp only [List.foldl_cons, List.foldl_nil]
  rw [h, h c']

/-! ## The example scenario -/

/-- C15, as stated, fails at its last step: after `Add(A, 2)`, `Add(A, 3)`,
`SetQuantity(A, 1)` and `SetQuantity(A, 0)` the cart is not empty. The last
call only opens the `Remove Item` dialog: the cart still holds `A` with
quantity 1, and the total item count is 1, not 0. -/
theorem scenario_counterexample :
    scenario4.effects = [.alertRemoveItem (addToCart_record productA 1 200)]
      ∧ (viewOf scenario4.store).cart = [addToCart_record productA 1 200]
      ∧ showsEmptyCart (viewOf scenario4.store) = false
      ∧ getTotalItems (viewOf scenario4.store) = some 1 :=
  ⟨rfl, rfl, by decide, by decide⟩

/-- C15, amended: from the empty cart, `Add(A, qty 2, price 9.99)` gives
`A` with quantity 2 and subtotal 19.98; `Add(A, qty 3)` gives quantity 5 and
subtotal 49.95; `SetQuantity(A, 1)` gives quantity 1 and subtotal 9.99;
`SetQuantity(A, 0)` opens the `Remove Item` dialog and leaves the cart at
quantity 1; once the user answers Remove the cart is empty, with total item
count 0 and total price 0. Prices stand for their exact decimal values. -/
theorem scenario_steps :
    ((viewOf scenario1).cart = [addToCart_record productA 2 100]
        ∧ subtotal (addToCart_record productA 2 100) = some 19.98)
      ∧ ((viewOf scenario2).cart = [addToCart_record productA 5 200]
        ∧ subtotal (addToCart_record productA 5 200) = some 49.95)
      ∧ ((viewOf scenario3).cart = [addToCart_record productA 1 200]
        ∧ subtotal (addToCart_record productA 1 200) = some 9.99)
      ∧ (scenario4.effects = [.alertRemoveItem (addToCart_record productA 1 200)]
        ∧ (viewOf scenario4.store).cart = [addToCart_record productA 1 200])
      ∧ ((viewOf scenario5).cart = []
        ∧ showsEmptyCart (viewOf scenario5) = true
        ∧ getTotalItems (viewOf scenario5) = some 0
        ∧ getTotalPrice (viewOf scenario5) = some 0) := by
  refine ⟨⟨rfl, ?_⟩, ⟨rfl, ?_⟩, ⟨rfl, ?_⟩, ⟨rfl, rfl⟩, ⟨rfl, rfl, rfl, rfl⟩⟩
  · simp only [subtotal, addToCart_record, productA, Field.toOption]; norm_num
  · simp only [subtotal, addToCart_record, productA, Field.toOption]; norm_num
  · simp only [subtotal, addToCart_record, productA, Field.toOption]; norm_num

/-! ## The quantity invariant -/

theorem dbGet_dbSet_other (s : Store) (uid key uid' key' : String) (v : Item)
    (h : uid' ≠ uid ∨ key' ≠ key) :
    dbGet (dbSet s uid key v) uid' key' = dbGet s uid' key' := by
  by_cases hu : uid' = uid
  · subst hu
    have hk : key' ≠ key := by
      rcases h with h | h
      · exact absurd rfl h
      · exact h
    simp [dbGet, dbSet, nodeGet_nodePut_other key key' v (s uid') hk]
  · simp [dbGet, dbSet, hu]

theorem dbGet_dbRemove_other (s : Store) (uid key uid' key' : String)
    (h : uid' ≠ uid ∨ key' ≠ key) :
    dbGet (dbRemove s uid key) uid' key' = dbGet s uid' key' := by
  by_cases hu : uid' = uid
  · subst hu
    have hk : key' ≠ key := by
      rcases h with h | h
      · exact absurd rfl h
      · exact h
    simp [dbGet, dbRemove, nodeGet_nodeDel_other key key' (s uid') hk]
  · simp [dbGet, dbRemove, hu]

theorem StoreValid_emptyStore : StoreValid emptyStore := by
  intro uid key item h
  simp [dbGet, emptyStore, nodeGet] at h

theorem StoreValid_dbSet (s : Store) (uid key : String) (v : Item) (q : Int)
    (hs : StoreValid s) (hv : v.quantity = some q) (hq : 1 ≤ q) :
    StoreValid (dbSet s uid key v) := by
  intro uid' key' item h
  by_cases hsame : uid' = uid ∧ key' = key
  · obtain ⟨hu, hk⟩ := hsame
    subst hu hk
    rw [dbGet_dbSet_same] at h
    cases h
    exact ⟨q, hv, hq⟩
  · have hne : uid' ≠ uid ∨ key' ≠ key := by
      by_cases hu : uid' = uid
      · exact Or.inr (fun hk => hsame ⟨hu, hk⟩)
      · exact Or.inl hu
    rw [dbGet_dbSet_other s uid key uid' key' v hne] at h
    exact hs uid' key' item h

theorem StoreValid_dbRemove (s : Store) (uid key : String) (hs : StoreValid s) :
    StoreValid (dbRemove s uid key) := by
  intro uid' key' item h
  by_cases hsame : uid' = uid ∧ key' = key
  · obtain ⟨hu, hk⟩ := hsame
    subst hu hk
    rw [dbGet_dbRemove_same] at h
    cases h
  · have hne : uid' ≠ uid ∨ key' ≠ key := by
      by_cases hu : uid' = uid
      · exact Or.inr (fun hk => hsame ⟨hu, hk⟩)
      · exact Or.inl hu
    rw [dbGet_dbRemove_other s uid key uid' key' hne] at h
    exact hs uid' key' item h

theorem StoreValid_dbUpdate (s : Store) (uid key : String) (item : Item) (newQty : Int)
    (hs : StoreValid s) (hq : 1 ≤ newQty) :
    StoreValid (dbUpdate s uid key (updateQuantity_patch item newQty)) := by
  unfold dbUpdate
  cases dbGet s uid key with
  | none => exact StoreValid_dbSet s uid key _ newQty hs rfl hq
  | some old =>
    exact StoreValid_dbSet s uid key _ newQty hs (by simp [Item.merge, updateQuantity_patch]) hq

/-- What `addToCart` leaves in the store and what it passes to `set`, for every
outcome of its repository calls. -/
theorem addToCart_cases (env : AddEnv) (s : Store) (d : DetailState) :
    ((addToCart env s d).store = s
        ∧ (addToCart env s d).effects.countP Effect.isWrite ≤ 1
        ∧ (env.getOk = false → (addToCart env s d).effects.countP Effect.isWrite = 0)
        ∧ (∀ uid key v, Effect.set uid key v ∈ (addToCart env s d).effects →
            ∃ uid' nq, env.user = some uid' ∧ env.getOk = true
              ∧ addToCart_newQuantity (dbGet s uid' (pathKey (some d.product.id))) d.quantity
                  = some nq
              ∧ v = addToCart_record d.product nq env.now))
      ∨ (∃ uid nq, env.user = some uid ∧ env.getOk = true ∧ env.setOk = true
        ∧ addToCart_newQuantity (dbGet s uid (pathKey (some d.product.id))) d.quantity = some nq
        ∧ (addToCart env s d).store
            = dbSet s uid (pathKey (some d.product.id)) (addToCart_record d.product nq env.now)
        ∧ (addToCart env s d).effects
            = [.get uid (pathKey (some d.product.id)),
               .set uid (pathKey (some d.product.id)) (addToCart_record d.product nq env.now),
               .alertSuccess d.quantity]) := by
  cases hu : env.user with
  | none =>
    left
    simp [addToCart, addToCart_begin, hu, Effect.isWrite]
  | some uid =>
    cases hg : env.getOk with
    | false =>
      left
      simp [addToCart, addToCart_begin, addToCart_onGet, addToCart_failed, hu, hg,
        Effect.isWrite]
    | true =>
      cases hq : addToCart_newQuantity (dbGet s uid (pathKey (some d.product.id))) d.quantity with
      | none =>
        left
        simp [addToCart, addToCart_begin, addToCart_onGet, addToCart_failed, hu, hg, hq,
          Effect.isWrite]
      | some nq =>
        cases hdef : d.product.hasUndefined with
        | true =>
          left
          simp [addToCart, addToCart_begin, addToCart_onGet, addToCart_failed, hu, hg, hq, hdef,
            Effect.isWrite]
        | false =>
          cases hw : env.setOk with
          | false =>
            left
            simp [addToCart, addToCart_begin, addToCart_onGet, addToCart_onSet,
              addToCart_failed, hu, hg, hq, hdef, hw, Effect.isWrite]
          | true =>
            right
            refine ⟨uid, nq, rfl, rfl, rfl, hq, ?_, ?_⟩
            · exact (addToCart_ok env s d uid nq hu hg hw hq hdef).1
            · exact (addToCart_ok env s d uid nq hu hg hw hq hdef).2.2

theorem addToCart_newQuantity_pos (s : Store) (uid key : String) (q nq : Int)
    (hs : StoreValid s) (hq : 1 ≤ q)
    (h : addToCart_newQuantity (dbGet s uid key) q = some nq) : 1 ≤ nq := by
  cases hget : dbGet s uid key with
  | none =>
    rw [hget] at h
    simp only [addToCart_newQuantity, Option.some.injEq] at h
    omega
  | some existing =>
    obtain ⟨e, he, hpos⟩ := hs uid key existing hget
    rw [hget] at h
    simp only [addToCart_newQuantity, he, Option.map_some', Option.some.injEq] at h
    rw [← h]
    exact one_le_jsAdd e q hpos hq

/-- What `updateQuantity` leaves in the store and what it passes to `update`,
for every outcome of its repository call. -/
theorem updateQuantity_cases (user : Option String) (ok : Bool) (s : Store) (item : Item)
    (newQty : Int) (c : CartState) :
    ((updateQuantity user ok s item newQty c).store = s
        ∧ (updateQuantity user ok s item newQty c).effects.countP Effect.isWrite ≤ 1
        ∧ (∀ uid key patch,
            Effect.update uid key patch ∈ (updateQuantity user ok s item newQty c).effects →
            1 ≤ newQty ∧ patch = updateQuantity_patch item newQty))
      ∨ (∃ uid, user = some uid ∧ ok = true ∧ 1 ≤ newQty
        ∧ (updateQuantity user ok s item newQty c).store
            = dbUpdate s uid (pathKey item.id) (updateQuantity_patch item newQty)
        ∧ (updateQuantity user ok s item newQty c).effects
            = [.update uid (pathKey item.id) (updateQuantity_patch item newQty)]) := by
  cases user with
  | none =>
    left
    simp [updateQuantity, updateQuantity_begin]
  | some uid =>
    by_cases hn : newQty ≤ 0
    · left
      simp [updateQuantity, updateQuantity_begin, handleRemove, hn, Effect.isWrite]
    · have hpos : 1 ≤ newQty := by omega
      cases ok with
      | false =>
        left
        simp [updateQuantity, updateQuantity_begin, updateQuantity_settled, hn, hpos,
          Effect.isWrite]
      | true =>
        right
        refine ⟨uid, rfl, rfl, hpos, ?_, ?_⟩ <;>
          simp [updateQuantity, updateQuantity_begin, updateQuantity_settled, hn]

/-- What `removeFromCart` leaves in the store, for every outcome of its
repository call. -/
theorem removeFromCart_cases (user : Option String) (ok : Bool) (s : Store) (item : Item)
    (c : CartState) :
    ((removeFromCart user ok s item c).store = s
        ∧ (removeFromCart user ok s item c).effects.countP Effect.isWrite ≤ 1)
      ∨ (∃ uid, user = some uid ∧ ok = true
        ∧ (removeFromCart user ok s item c).store = dbRemove s uid (pathKey item.id)
        ∧ (removeFromCart user ok s item c).effects = [.remove uid (pathKey item.id)]) := by
  cases user with
  | none =>
    left
    simp [removeFromCart, removeFromCart_begin]
  | some uid =>
    cases ok with
    | false =>
      left
      simp [removeFromCart, removeFromCart_begin, removeFromCart_settled, Effect.isWrite]
    | true =>
      right
      refine ⟨uid, rfl, rfl, ?_, ?_⟩ <;>
        simp [removeFromCart, removeFromCart_begin, removeFromCart_settled]

/-- C16: if every line item in the store has an integer quantity of at least 1,
then after any `addToCart` with a selector quantity of at least 1, any
`updateQuantity` with any integer argument and any `removeFromCart`, every line
item in the store still has a quantity of at least 1; and every record passed
to `set` or to `update` has a quantity of at least 1. -/
theorem quantity_invariant (s : Store) (hs : StoreValid s) :
    (∀ env d, 1 ≤ d.quantity →
        StoreValid (addToCart env s d).store
          ∧ ∀ uid key v, Effect.set uid key v ∈ (addToCart env s d).effects →
              ∃ q, v.quantity = some q ∧ 1 ≤ q)
      ∧ (∀ user ok item newQty c,
        StoreValid (updateQuantity user ok s item newQty c).store
          ∧ ∀ uid key patch,
              Effect.update uid key patch ∈ (updateQuantity user ok s item newQty c).effects →
              ∃ q, patch.quantity = some q ∧ 1 ≤ q)
      ∧ (∀ user ok item c, StoreValid (removeFromCart user ok s item c).store) := by
  refine ⟨fun env d hq => ?_, fun user ok item newQty c => ?_, fun user ok item c => ?_⟩
  · rcases addToCart_cases env s d with ⟨hst, -, -, hset⟩ | ⟨uid, nq, -, -, -, hnq, hst, heff⟩
    · refine ⟨by rw [hst]; exact hs, fun uid key v hv => ?_⟩
      obtain ⟨uid', nq, -, -, hnq, rfl⟩ := hset uid key v hv
      exact ⟨nq, rfl, addToCart_newQuantity_pos s uid' _ d.quantity nq hs hq hnq⟩
    · have hpos := addToCart_newQuantity_pos s uid _ d.quantity nq hs hq hnq
      refine ⟨?_, fun uid' key v hv => ?_⟩
      · rw [hst]
        exact StoreValid_dbSet s uid _ _ nq hs rfl hpos
      · rw [heff] at hv
        simp only [List.mem_cons, List.mem_singleton, List.not_mem_nil, or_false] at hv
        rcases hv with hv | hv | hv
        · cases hv
        · cases hv
          exact ⟨nq, rfl, hpos⟩
        · cases hv
  · rcases updateQuantity_cases user ok s item newQty c with
      ⟨hst, -, hupd⟩ | ⟨uid, -, -, hpos, hst, heff⟩
    · refine ⟨by rw [hst]; exact hs, fun uid key patch hp => ?_⟩
      obtain ⟨hpos, rfl⟩ := hupd uid key patch hp
      exact ⟨newQty, rfl, hpos⟩
    · refine ⟨?_, fun uid' key patch hp => ?_⟩
      · rw [hst]
        exact StoreValid_dbUpdate s uid _ item newQty hs hpos
      · rw [heff] at hp
        simp only [List.mem_singleton] at hp
        cases hp
        exact ⟨newQty, rfl, hpos⟩
  · rcases removeFromCart_cases user ok s item c with ⟨hst, -⟩ | ⟨uid, -, -, hst, -⟩
    · rw [hst]; exact hs
    · rw [hst]; exact StoreValid_dbRemove s uid _ hs

/-- C16 at a concrete input: the store in which user `u` holds 2 units of
product `A`. -/
theorem quantity_invariant_witness :
    (∀ env d, 1 ≤ d.quantity →
        StoreValid (addToCart env (storeA 2) d).store
          ∧ ∀ uid key v, Effect.set uid key v ∈ (addToCart env (storeA 2) d).effects →
              ∃ q, v.quantity = some q ∧ 1 ≤ q)
      ∧ (∀ user ok item newQty c,
        StoreValid (updateQuantity user ok (storeA 2) item newQty c).store
          ∧ ∀ uid key patch,
              Effect.update uid key patch
                  ∈ (updateQuantity user ok (storeA 2) item newQty c).effects →
              ∃ q, patch.quantity = some q ∧ 1 ≤ q)
      ∧ (∀ user ok item c, StoreValid (removeFromCart user ok (storeA 2) item c).store) :=
  quantity_invariant (storeA 2)
    (StoreValid_dbSet emptyStore "u" (pathKey (some productA.id)) (itemA 2) 2
      StoreValid_emptyStore rfl (by decide))

/-! ## Pending flags and failures -/

/-- C17: for every `addToCart` and every `updateQuantity` with `newQty ≥ 1` by a
signed-in user, the pending flag is set in the step that issues the first
repository call and is cleared when the operation settles, whether the
repository calls resolve or reject; no way out leaves the flag set. In every
session an Add is pending only while `addingToCart` is true. -/
theorem pending_flag_set_and_cleared (uid : String) (d : DetailState) (item : Item)
    (c : CartState) (s : Store) :
    ((addToCart_begin (some uid) d).detail.addingToCart = true
        ∧ (addToCart_begin (some uid) d).effects = [.get uid (pathKey (some d.product.id))])
      ∧ (∀ getOk now setOk,
          (addToCart { user := some uid, getOk := getOk, now := now, setOk := setOk } s d
            ).detail.addingToCart = false)
      ∧ (∀ result now product quantity d',
          (addToCart_onGet result now uid product quantity d').task = none →
          (addToCart_onGet result now uid product quantity d').detail.addingToCart = false)
      ∧ (∀ ok quantity d',
          (addToCart_onSet ok quantity d').task = none
            ∧ (addToCart_onSet ok quantity d').detail.addingToCart = false)
      ∧ (∀ user store product events,
          (run (World.init user store product) events).detail.addingToCart = false →
          pendingAdds (run (World.init user store product) events) = 0)
      ∧ (∀ newQty, 1 ≤ newQty →
          nodeGet (updateQuantity_begin (some uid) item newQty c).screen.updatingItems
              (pathKey item.id) = some true
            ∧ (updateQuantity_begin (some uid) item newQty c).effects
                = [.update uid (pathKey item.id) (updateQuantity_patch item newQty)]
            ∧ ∀ ok, nodeGet (updateQuantity (some uid) ok s item newQty c).screen.updatingItems
                (pathKey item.id) = some false)
      ∧ (∀ ok c', nodeGet (updateQuantity_settled ok item c').screen.updatingItems
          (pathKey item.id) = some false) := by
  refine ⟨⟨rfl, rfl⟩, ?_, ?_, ?_, ?_, ?_, ?_⟩
  · intro getOk now setOk
    cases getOk
    · simp [addToCart, addToCart_begin, addToCart_onGet, addToCart_failed]
    · cases hq : addToCart_newQuantity (dbGet s uid (pathKey (some d.product.id))) d.quantity
      · simp [addToCart, addToCart_begin, addToCart_onGet, addToCart_failed, hq]
      · cases hdef : d.product.hasUndefined
        · cases setOk <;>
            simp [addToCart, addToCart_begin, addToCart_onGet, addToCart_onSet,
              addToCart_failed, hq, hdef]
        · simp [addToCart, addToCart_begin, addToCart_onGet, addToCart_failed, hq, hdef]
  · intro result now product quantity d' h
    cases result with
    | none => simp [addToCart_onGet, addToCart_failed]
    | some snapshot =>
      cases hq : addToCart_newQuantity snapshot quantity with
      | none => simp [addToCart_onGet, addToCart_failed, hq]
      | some nq =>
        cases hdef : product.hasUndefined with
        | true => simp [addToCart_onGet, addToCart_failed, hq, hdef]
        | false => simp [addToCart_onGet, hq, hdef] at h
  · intro ok quantity d'
    cases ok <;> simp [addToCart_onSet, addToCart_failed]
  · intro user store product events
    exact (AddInvariant_run events _ (AddInvariant_init user store product)).2
  · intro newQty hpos
    have hn : ¬ newQty ≤ 0 := by omega
    refine ⟨?_, ?_, fun ok => ?_⟩
    · simp [updateQuantity_begin, hn, nodeGet_nodePut_same]
    · simp [updateQuantity_begin, hn]
    · simp [updateQuantity, updateQuantity_begin, updateQuantity_settled, hn,
        nodeGet_nodePut_same]
  · intro ok c'
    simp [updateQuantity_settled, nodeGet_nodePut_same]

/-- C17 at a concrete input: `updateQuantity(item, 7)` on the cart that shows 2
units of product `A`. -/
theorem pending_flag_set_and_cleared_witness :
    nodeGet (updateQuantity_begin (some "u") (itemA 2) 7 (cartA 2)).screen.updatingItems
        (pathKey (itemA 2).id) = some true
      ∧ (updateQuantity_begin (some "u") (itemA 2) 7 (cartA 2)).effects
          = [.update "u" (pathKey (itemA 2).id) (updateQuantity_patch (itemA 2) 7)]
      ∧ ∀ ok, nodeGet (updateQuantity (some "u") ok (storeA 2) (itemA 2) 7
            (cartA 2)).screen.updatingItems (pathKey (itemA 2).id) = some false :=
  (pending_flag_set_and_cleared "u" (detailA 3) (itemA 2) (cartA 2) (storeA 2)).2.2.2.2.2.1 7
    (by decide)

/-- C18: for every `addToCart`, `updateQuantity` and `removeFromCart`, whatever
repository call rejects, the store afterwards is either the store before or
the store with the one write fully applied; a rejected call leaves the store
as it was; an Add whose read rejects issues no write; and every run issues at
most one write. -/
theorem failure_leaves_defined_state (s : Store) (d : DetailState) (item : Item)
    (c : CartState) (newQty : Int) :
    (∀ env,
        ((addToCart env s d).store = s
            ∨ ∃ uid nq, (addToCart env s d).store
                = dbSet s uid (pathKey (some d.product.id))
                    (addToCart_record d.product nq env.now))
          ∧ (addToCart env s d).effects.countP Effect.isWrite ≤ 1
          ∧ (env.getOk = false →
              (addToCart env s d).store = s
                ∧ (addToCart env s d).effects.countP Effect.isWrite = 0)
          ∧ (env.setOk = false → (addToCart env s d).store = s))
      ∧ (∀ user ok,
        ((updateQuantity user ok s item newQty c).store = s
            ∨ ∃ uid, (updateQuantity user ok s item newQty c).store
                = dbUpdate s uid (pathKey item.id) (updateQuantity_patch item newQty))
          ∧ (updateQuantity user ok s item newQty c).effects.countP Effect.isWrite ≤ 1
          ∧ (ok = false → (updateQuantity user ok s item newQty c).store = s))
      ∧ (∀ user ok,
        ((removeFromCart user ok s item c).store = s
            ∨ ∃ uid, (removeFromCart user ok s item c).store = dbRemove s uid (pathKey item.id))
          ∧ (removeFromCart user ok s item c).effects.countP Effect.isWrite ≤ 1
          ∧ (ok = false → (removeFromCart user ok s item c).store = s)) := by
  refine ⟨fun env => ?_, fun user ok => ?_, fun user ok => ?_⟩
  · rcases addToCart_cases env s d with ⟨hst, hcount, hread, -⟩ | ⟨uid, nq, -, hg, hw, -, hst, heff⟩
    · exact ⟨Or.inl hst, hcount, fun h => ⟨hst, hread h⟩, fun _ => hst⟩
    · refine ⟨Or.inr ⟨uid, nq, hst⟩, ?_, fun h => ?_, fun h => ?_⟩
      · rw [heff]; simp [Effect.isWrite]
      · rw [hg] at h; cases h
      · rw [hw] at h; cases h
  · rcases updateQuantity_cases user ok s item newQty c with
      ⟨hst, hcount, -⟩ | ⟨uid, -, hok, -, hst, heff⟩
    · exact ⟨Or.inl hst, hcount, fun _ => hst⟩
    · refine ⟨Or.inr ⟨uid, hst⟩, ?_, fun h => ?_⟩
      · rw [heff]; simp [Effect.isWrite]
      · rw [hok] at h; cases h
  · rcases removeFromCart_cases user ok s item c with ⟨hst, hcount⟩ | ⟨uid, -, hok, hst, heff⟩
    · exact ⟨Or.inl hst, hcount, fun _ => hst⟩
    · refine ⟨Or.inr ⟨uid, hst⟩, ?_, fun h => ?_⟩
      · rw [heff]; simp [Effect.isWrite]
      · rw [hok] at h; cases h

/-- C18 at a concrete input: an Add of 3 units of product `A` whose read rejects. -/
theorem failure_leaves_defined_state_witness :
    (addToCart envReadFails (storeA 2) (detailA 3)).store = storeA 2
      ∧ (addToCart envReadFails (storeA 2) (detailA 3)).effects.countP Effect.isWrite = 0 :=
  ((failure_leaves_defined_state (storeA 2) (detailA 3) (itemA 2) (cartA 2) 7).1
    envReadFails).2.2.1 rfl

/-! ## Complete records -/

/-- C19, as stated, fails in both halves. The catalog sends product `A` with
`category: null`: the Add succeeds and the stored record has no `category`.
And the cart of user `u` holds a record without `title`: reconciliation puts
it in the local cart, and `updateQuantity` called with it passes to `update`
an object without `title`, so the record stored afterwards has no `title`
either. -/
theorem partial_record_counterexample :
    ((addToCart (envOk 100) emptyStore detailNullCategory).succeeded = true
        ∧ (dbGet (addToCart (envOk 100) emptyStore detailNullCategory).store "u"
            (pathKey (some productNullCategory.id))).map Item.isComplete = some false)
      ∧ (viewOf storeMalformed).cart = [itemA 2, itemNoTitle]
      ∧ (updateQuantity (some "u") true storeMalformed itemNoTitle 3
            (viewOf storeMalformed)).effects
          = [.update "u" (pathKey itemNoTitle.id) (updateQuantity_patch itemNoTitle 3)]
      ∧ (updateQuantity_patch itemNoTitle 3).isComplete = false
      ∧ (dbGet (updateQuantity (some "u") true storeMalformed itemNoTitle 3
            (viewOf storeMalformed)).store "u" (pathKey itemNoTitle.id)).map Item.isComplete
          = some false :=
  ⟨⟨by decide, by decide⟩, rfl, rfl, by decide, by decide⟩

/-- C19, amended: every record `addToCart` passes to `set` holds `id`,
`quantity` and `addedAt`, and holds `title`, `price`, `image` and `category`
exactly when the product has them (a `null` field is not stored, and with an
`undefined` field nothing is written), so it has all seven wire fields
exactly when the product has those four. The object `updateQuantity` passes
to `update` is the item of the local cart with `quantity` overwritten: it has
all seven fields exactly when the item has the six other fields, so it is
complete for every complete item of the reconciled cart. -/
theorem upsert_records_complete (s : Store) (d : DetailState) (item : Item) (newQty : Int)
    (c : CartState) :
    (∀ env uid key v, Effect.set uid key v ∈ (addToCart env s d).effects →
        v.id = some d.product.id ∧ v.quantity.isSome = true ∧ v.addedAt.isSome = true
          ∧ d.product.hasUndefined = false
          ∧ v.isComplete = d.product.isComplete)
      ∧ (∀ user ok uid key patch,
          Effect.update uid key patch ∈ (updateQuantity user ok s item newQty c).effects →
          patch = updateQuantity_patch item newQty
            ∧ patch.isComplete
                = (item.id.isSome && item.title.isSome && item.price.isSome && item.image.isSome
                    && item.category.isSome && item.addedAt.isSome)
            ∧ (item.isComplete = true → patch.isComplete = true)) := by
  have hpatch : (updateQuantity_patch item newQty).isComplete
      = (item.id.isSome && item.title.isSome && item.price.isSome && item.image.isSome
          && item.category.isSome && item.addedAt.isSome) := by
    simp [Item.isComplete, updateQuantity_patch]
  have hcomplete : item.isComplete = true → (updateQuantity_patch item newQty).isComplete = true := by
    intro h
    rw [hpatch]
    simp only [Item.isComplete, Bool.and_eq_true] at h
    simp [h.1.1.1.1.1.1, h.1.1.1.1.1.2, h.1.1.1.1.2, h.1.1.1.2, h.1.1.2, h.2]
  have hrecord : ∀ nq now, (addToCart_record d.product nq now).isComplete
      = d.product.isComplete := by
    intro nq now
    simp [Item.isComplete, Product.isComplete, addToCart_record]
  have hundef : ∀ env uid key v, Effect.set uid key v ∈ (addToCart env s d).effects →
      d.product.hasUndefined = false := by
    intro env uid key v hv
    cases hdef : d.product.hasUndefined with
    | false => rfl
    | true =>
      exfalso
      cases hu : env.user with
      | none => simp [addToCart, addToCart_begin, hu] at hv
      | some uid' =>
        cases hg : env.getOk with
        | false => simp [addToCart, addToCart_begin, addToCart_onGet, addToCart_failed, hu, hg] at hv
        | true =>
          cases hq : addToCart_newQuantity (dbGet s uid' (pathKey (some d.product.id)))
              d.quantity <;>
            simp [addToCart, addToCart_begin, addToCart_onGet, addToCart_failed, hu, hg, hq,
              hdef] at hv
  refine ⟨fun env uid key v hv => ?_, fun user ok uid key patch hp => ?_⟩
  · have hd := hundef env uid key v hv
    rcases addToCart_cases env s d with ⟨-, -, -, hset⟩ | ⟨uid', nq, -, -, -, -, -, heff⟩
    · obtain ⟨uid', nq, -, -, -, rfl⟩ := hset uid key v hv
      exact ⟨rfl, rfl, rfl, hd, hrecord nq env.now⟩
    · rw [heff] at hv
      simp only [List.mem_cons, List.mem_singleton, List.not_mem_nil, or_false] at hv
      rcases hv with hv | hv | hv
      · cases hv
      · cases hv
        exact ⟨rfl, rfl, rfl, hd, hrecord nq env.now⟩
      · cases hv
  · have hp' : patch = updateQuantity_patch item newQty := by
      rcases updateQuantity_cases user ok s item newQty c with
        ⟨-, -, hupd⟩ | ⟨uid', -, -, -, -, heff⟩
      · exact (hupd uid key patch hp).2
      · rw [heff] at hp
        simp only [List.mem_singleton] at hp
        cases hp
        rfl
    subst hp'
    exact ⟨rfl, hpatch, hcomplete⟩

/-- C19, amended, at a concrete input: `updateQuantity(item, 7)` on the stored 2
units of product `A`. -/
theorem upsert_records_complete_witness :
    (updateQuantity_patch (itemA 2) 7).isComplete = true :=
  ((upsert_records_complete (storeA 2) (detailA 3) (itemA 2) 7 (cartA 2)).2 (some "u") true "u"
    (pathKey (itemA 2).id) (updateQuantity_patch (itemA 2) 7)
    (List.mem_singleton.mpr rfl)).2.2 (by decide)

/-! ## Loading and the empty cart -/

/-- C20, as stated, fails: the screen is mounted for user `u` and the listener
is cancelled with an error before any snapshot arrives; the error callback
clears `loading` and leaves `cart` empty, so the screen shows the empty cart
although no snapshot has been received. -/
theorem empty_cart_without_snapshot_counterexample :
    showsEmptyCart (cartRun CartSession.init [.mount (some "u"), .listenError]).screen = true
      ∧ (cartRun CartSession.init [.mount (some "u"), .listenError]).screen.cart = []
      ∧ (cartRun CartSession.init [.mount (some "u"), .listenError]).screen.loading = false
      ∧ [CartEvent.mount (some "u"), CartEvent.listenError].any CartEvent.isSnapshot = false := by
  decide

theorem cartRun_append (s : CartSession) (events : List CartEvent) (e : CartEvent) :
    cartRun s (events ++ [e]) = cartStep (cartRun s events) e := by
  simp [cartRun, List.foldl_append]

/-- C20, amended: the cart screen does not show the empty cart when it is
mounted, and in every sequence of events it shows the empty cart only after a
callback has been delivered to an open listener: either a snapshot that holds
no line items, or the error callback (which clears `loading` without touching
`cart`). -/
theorem empty_cart_only_after_callback (events : List CartEvent)
    (h : showsEmptyCart (cartRun CartSession.init events).screen = true) :
    showsEmptyCart CartSession.init.screen = false
      ∧ ∃ before e after, events = before ++ e :: after
          ∧ 0 < (cartRun CartSession.init before).listeners
          ∧ (e = .snapshot [] ∨ e = .listenError) := by
  refine ⟨rfl, ?_⟩
  induction events using List.reverseRecOn with
  | nil => simp [cartRun, showsEmptyCart, CartSession.init, CartState.init] at h
  | append_singleton l a ih =>
    have extend : showsEmptyCart (cartRun CartSession.init l).screen = true →
        ∃ before e after, l ++ [a] = before ++ e :: after
          ∧ 0 < (cartRun CartSession.init before).listeners
          ∧ (e = .snapshot [] ∨ e = .listenError) := by
      intro hl
      obtain ⟨before, e, after, hl', hpos, he⟩ := ih hl
      exact ⟨before, e, after ++ [a], by rw [hl']; simp, hpos, he⟩
    rw [cartRun_append] at h
    cases a with
    | mount user =>
      cases user with
      | none => exact extend (by simpa [cartStep, loadCart, showsEmptyCart] using h)
      | some uid => simp [cartStep, loadCart, showsEmptyCart] at h
    | refresh user =>
      cases user with
      | none => exact extend (by simpa [cartStep, onRefresh, loadCart, showsEmptyCart] using h)
      | some uid => simp [cartStep, onRefresh, loadCart, showsEmptyCart] at h
    | snapshot data =>
      by_cases hz : (cartRun CartSession.init l).listeners = 0
      · exact extend (by simpa [cartStep, hz] using h)
      · cases data with
        | nil => exact ⟨l, .snapshot [], [], rfl, Nat.pos_of_ne_zero hz, Or.inl rfl⟩
        | cons entry rest =>
          simp [cartStep, hz, loadCart_onSnapshot, showsEmptyCart] at h
    | listenError =>
      by_cases hz : (cartRun CartSession.init l).listeners = 0
      · exact extend (by simpa [cartStep, hz] using h)
      · exact ⟨l, .listenError, [], rfl, Nat.pos_of_ne_zero hz, Or.inr rfl⟩
    | teardown => exact extend (by simpa [cartStep] using h)

/-- C20, amended, at a concrete input: the screen is mounted for user `u` and
receives a snapshot with no line items. -/
theorem empty_cart_only_after_callback_witness :
    showsEmptyCart CartSession.init.screen = false
      ∧ ∃ before e after, [CartEvent.mount (some "u"), CartEvent.snapshot []]
            = before ++ e :: after
          ∧ 0 < (cartRun CartSession.init before).listeners
          ∧ (e = .snapshot [] ∨ e = .listenError) :=
  empty_cart_only_after_callback [.mount (some "u"), .snapshot []] (by decide)

/-! ## Subscriptions -/

/-- C21 evaluated on the code: the screen is mounted for user `u` and torn
down. The listener that `loadCart` opened is still open after the teardown
(two listeners when the user refreshed once), and a snapshot delivered after
the teardown still runs the callback, which sets the cart. A teardown never
closes a listener. -/
theorem listener_survives_teardown :
    (cartRun CartSession.init [.mount (some "u"), .teardown]).mounted = false
      ∧ (cartRun CartSession.init [.mount (some "u"), .teardown]).listeners = 1
      ∧ (cartRun CartSession.init [.mount (some "u"), .refresh (some "u"), .teardown]).listeners
          = 2
      ∧ (cartRun CartSession.init
            [.mount (some "u"), .teardown, .snapshot (storeA 2 "u")]).screen.cart = [itemA 2]
      ∧ ∀ s : CartSession, (cartStep s .teardown).listeners = s.listeners :=
  ⟨rfl, rfl, rfl, rfl, fun _ => rfl⟩

/-! ## The quantity selector -/

theorem mem_spawn (tasks : List Task) (o : Option Task) (t : Task) (h : t ∈ spawn tasks o) :
    t ∈ tasks ∨ o = some t := by
  cases o with
  | none => exact Or.inl h
  | some t' =>
    simp only [spawn, List.mem_append, List.mem_singleton] at h
    rcases h with h | h
    · exact Or.inl h
    · exact Or.inr (by rw [h])

theorem mem_of_mem_eraseIdx (tasks : List Task) (i : Nat) (t : Task)
    (h : t ∈ tasks.eraseIdx i) : t ∈ tasks :=
  (List.eraseIdx_sublist tasks i).subset h

theorem SelectorInvariant_init (user : Option String) (store : Store) (product : Product) :
    SelectorInvariant (World.init user store product) := by
  refine ⟨by simp [World.init, DetailState.init], fun t ht => ?_⟩
  simp [World.init] at ht

theorem SelectorInvariant_settleTask (w : World) (i : Nat) (ok : Bool) (now : Nat) (t : Task)
    (ht : w.tasks.get? i = some t) (h : SelectorInvariant w) :
    SelectorInvariant (settleTask w i ok now t) := by
  obtain ⟨hq, htasks⟩ := h
  have hmem : t ∈ w.tasks := List.get?_mem ht
  have hold : ∀ t' ∈ w.tasks.eraseIdx i, ∀ q, Task.addQuantity t' = some q → 1 ≤ q :=
    fun t' ht' => htasks t' (mem_of_mem_eraseIdx w.tasks i t' ht')
  cases t with
  | addAwaitGet uid product quantity =>
    have hcap : 1 ≤ quantity := htasks _ hmem quantity rfl
    cases ok with
    | false =>
      refine ⟨by simpa [settleTask, addToCart_onGet, addToCart_failed] using hq, ?_⟩
      intro t' ht' q hq'
      simp only [settleTask, addToCart_onGet, addToCart_failed, spawn] at ht'
      exact hold t' ht' q hq'
    | true =>
      cases hnq : addToCart_newQuantity (dbGet w.store uid (pathKey (some product.id))) quantity with
      | none =>
        refine ⟨by simpa [settleTask, addToCart_onGet, addToCart_failed, hnq] using hq, ?_⟩
        intro t' ht' q hq'
        simp only [settleTask, addToCart_onGet, addToCart_failed, hnq, if_true, spawn] at ht'
        exact hold t' ht' q hq'
      | some nq =>
        cases hdef : product.hasUndefined with
        | true =>
          refine ⟨by simpa [settleTask, addToCart_onGet, addToCart_failed, hnq, hdef] using hq,
            ?_⟩
          intro t' ht' q hq'
          simp only [settleTask, addToCart_onGet, addToCart_failed, hnq, hdef, if_true,
            spawn] at ht'
          exact hold t' ht' q hq'
        | false =>
          refine ⟨by simpa [settleTask, addToCart_onGet, hnq, hdef] using hq, ?_⟩
          intro t' ht' q hq'
          simp only [settleTask, addToCart_onGet, hnq, hdef, if_true, Bool.false_eq_true,
            if_false] at ht'
          rcases mem_spawn _ _ _ ht' with h' | h'
          · exact hold t' h' q hq'
          · cases h'
            simp only [Task.addQuantity, Option.some.injEq] at hq'
            omega
  | addAwaitSet uid product quantity record =>
    refine ⟨?_, ?_⟩
    · cases ok
      · simpa [settleTask, addToCart_onSet, addToCart_failed] using hq
      · simp [settleTask, addToCart_onSet]
    · intro t' ht' q hq'
      have ht'' : t' ∈ w.tasks.eraseIdx i := by
        cases ok <;> simpa [settleTask, addToCart_onSet, addToCart_failed, spawn] using ht'
      exact hold t' ht'' q hq'
  | updateAwait uid item patch =>
    refine ⟨by simpa [settleTask, updateQuantity_settled] using hq, ?_⟩
    intro t' ht' q hq'
    simp only [settleTask, updateQuantity_settled, spawn] at ht'
    exact hold t' ht' q hq'
  | removeAwait uid item =>
    have hr : (removeFromCart_settled ok w.cartScreen).task = none := by
      cases ok <;> rfl
    refine ⟨by simpa [settleTask] using hq, ?_⟩
    intro t' ht' q hq'
    simp only [settleTask, hr, spawn] at ht'
    exact hold t' ht' q hq'

theorem SelectorInvariant_step (w : World) (e : Event) (h : SelectorInvariant w) :
    SelectorInvariant (step w e) := by
  obtain ⟨hq, htasks⟩ := h
  cases e with
  | pressIncrease =>
    refine ⟨?_, htasks⟩
    simp only [step, increaseQuantity]
    exact one_le_jsAdd w.detail.quantity 1 hq (by norm_num)
  | pressDecrease =>
    refine ⟨?_, htasks⟩
    simp only [step, decreaseQuantity]
    split
    · rename_i hgt
      simp only []
      exact one_le_jsSub_one w.detail.quantity (by omega)
    · exact hq
  | pressAddToCart =>
    cases hf : w.detail.addingToCart with
    | true =>
      refine ⟨by simpa [step, pressAddToCart, hf] using hq, fun t ht => ?_⟩
      simp only [step, pressAddToCart, hf, if_true, spawn] at ht
      exact htasks t ht
    | false =>
      cases hu : w.user with
      | none =>
        refine ⟨by simpa [step, pressAddToCart, addToCart_begin, hf, hu] using hq,
          fun t ht => ?_⟩
        simp [step, pressAddToCart, addToCart_begin, hf, hu, spawn] at ht
        exact htasks t ht
      | some uid =>
        refine ⟨by simpa [step, pressAddToCart, addToCart_begin, hf, hu] using hq,
          fun t ht q hq' => ?_⟩
        simp only [step, pressAddToCart, addToCart_begin, hf, hu] at ht
        rcases mem_spawn _ _ _ ht with h' | h'
        · exact htasks t h' q hq'
        · simp only [Bool.false_eq_true, if_false, Option.some.injEq] at h'
          subst h'
          simp only [Task.addQuantity, Option.some.injEq] at hq'
          omega
  | updateQuantity item newQty =>
    refine ⟨?_, fun t ht q hq' => ?_⟩
    · simpa [step] using hq
    · simp only [step] at ht
      rcases mem_spawn _ _ _ ht with h' | h'
      · exact htasks t h' q hq'
      · cases hu : w.user with
        | none => simp [updateQuantity_begin, hu] at h'
        | some uid =>
          by_cases hn : newQty ≤ 0
          · simp [updateQuantity_begin, hu, hn, handleRemove] at h'
          · simp only [updateQuantity_begin, hu, hn, if_false, Option.some.injEq] at h'
            subst h'
            simp [Task.addQuantity] at hq'
  | removeFromCart item =>
    refine ⟨by simpa [step] using hq, fun t ht q hq' => ?_⟩
    simp only [step] at ht
    rcases mem_spawn _ _ _ ht with h' | h'
    · exact htasks t h' q hq'
    · cases hu : w.user with
      | none => simp [removeFromCart_begin, hu] at h'
      | some uid =>
        simp only [removeFromCart_begin, hu, Option.some.injEq] at h'
        subst h'
        simp [Task.addQuantity] at hq'
  | settle ok now =>
    simp only [step]
    cases ht : w.tasks.get? 0 with
    | none => exact ⟨hq, htasks⟩
    | some t => exact SelectorInvariant_settleTask w 0 ok now t ht ⟨hq, htasks⟩

theorem SelectorInvariant_run (events : List Event) (w : World) (h : SelectorInvariant w) :
    SelectorInvariant (run w events) := by
  induction events generalizing w with
  | nil => exact h
  | cons e rest ih => exact ih (step w e) (SelectorInvariant_step w e h)

/-- C22: the quantity selector of the product detail screen starts at 1,
`decreaseQuantity` at 1 changes nothing, and after every sequence of events
(presses on `+`, `-` and `Add to Cart`, settling repository calls with the
reset after a successful add, calls on the cart screen) the selector is at
least 1 and every pending Add captured a quantity of at least 1; so every
`addToCart` that a press starts has a quantity to add of at least 1. -/
theorem selector_at_least_one (user : Option String) (store : Store) (product : Product)
    (events : List Event) :
    (DetailState.init product).quantity = 1
      ∧ (∀ adding, decreaseQuantity { product := product, quantity := 1, addingToCart := adding }
          = { product := product, quantity := 1, addingToCart := adding })
      ∧ 1 ≤ (run (World.init user store product) events).detail.quantity
      ∧ (∀ t ∈ (run (World.init user store product) events).tasks,
          ∀ q, Task.addQuantity t = some q → 1 ≤ q)
      ∧ (∀ t, (pressAddToCart user (run (World.init user store product) events).detail).task
            = some t →
          Task.addQuantity t = some (run (World.init user store product) events).detail.quantity
            ∧ 1 ≤ (run (World.init user store product) events).detail.quantity) := by
  have hinv := SelectorInvariant_run events _ (SelectorInvariant_init user store product)
  refine ⟨rfl, fun adding => by simp [decreaseQuantity], hinv.1, hinv.2, fun t ht => ?_⟩
  refine ⟨?_, hinv.1⟩
  cases hf : (run (World.init user store product) events).detail.addingToCart with
  | true => simp [pressAddToCart, hf] at ht
  | false =>
    cases user with
    | none => simp [pressAddToCart, addToCart_begin, hf] at ht
    | some uid =>
      simp only [pressAddToCart, addToCart_begin, hf, Bool.false_eq_true, if_false,
        Option.some.injEq] at ht
      subst ht
      rfl

/-- C22 at a concrete input: after two presses on `+` and three on `-`, a press
on `Add to Cart` starts an Add of quantity 1. -/
theorem selector_at_least_one_witness :
    Task.addQuantity (.addAwaitGet "u" productA 1)
        = some (run (World.init (some "u") emptyStore productA)
            [.pressIncrease, .pressIncrease, .pressDecrease, .pressDecrease,
             .pressDecrease]).detail.quantity
      ∧ 1 ≤ (run (World.init (some "u") emptyStore productA)
            [.pressIncrease, .pressIncrease, .pressDecrease, .pressDecrease,
             .pressDecrease]).detail.quantity :=
  (selector_at_least_one (some "u") emptyStore productA
    [.pressIncrease, .pressIncrease, .pressDecrease, .pressDecrease, .pressDecrease]).2.2.2.2
    (.addAwaitGet "u" productA 1) rfl

/-! ## Frame -/

theorem dbGet_dbUpdate_other (s : Store) (uid key uid' key' : String) (patch : Item)
    (h : uid' ≠ uid ∨ key' ≠ key) :
    dbGet (dbUpdate s uid key patch) uid' key' = dbGet s uid' key' := by
  unfold dbUpdate
  cases dbGet s uid key <;> exact dbGet_dbSet_other s uid key uid' key' _ h

theorem dbSet_other_user (s : Store) (uid key uid' : String) (v : Item) (h : uid' ≠ uid) :
    dbSet s uid key v uid' = s uid' := by
  simp [dbSet, h]

theorem dbRemove_other_user (s : Store) (uid key uid' : String) (h : uid' ≠ uid) :
    dbRemove s uid key uid' = s uid' := by
  simp [dbRemove, h]

theorem dbUpdate_other_user (s : Store) (uid key uid' : String) (patch : Item)
    (h : uid' ≠ uid) :
    dbUpdate s uid key patch uid' = s uid' := by
  unfold dbUpdate
  cases dbGet s uid key <;> exact dbSet_other_user s uid key uid' _ h

theorem digitValue_digitChar (k : Nat) (h : k < 10) : digitValue (Nat.digitChar k) = k := by
  interval_cases k <;> rfl

theorem isDigit_digitChar (k : Nat) (h : k < 10) : (Nat.digitChar k).isDigit = true := by
  interval_cases k <;> rfl

theorem digitsValue_toDigitsCore (fuel n : Nat) (ds : List Char) (h : n < fuel) :
    digitsValue 0 (Nat.toDigitsCore 10 fuel n ds) = digitsValue n ds := by
  induction fuel generalizing n ds with
  | zero => omega
  | succ fuel ih =>
    simp only [Nat.toDigitsCore]
    split
    · rename_i h0
      have hn : n % 10 = n := Nat.mod_eq_of_lt (by omega)
      have hd : digitValue (Nat.digitChar n) = n := digitValue_digitChar n (by omega)
      simp [digitsValue, hn, hd]
    · rename_i h0
      rw [ih (n / 10) _ (by omega)]
      have : n / 10 * 10 + n % 10 = n := by omega
      simp [digitsValue, digitValue_digitChar (n % 10) (Nat.mod_lt _ (by omega)), this]

theorem all_isDigit_toDigitsCore (fuel n : Nat) (ds : List Char)
    (hds : ∀ c ∈ ds, c.isDigit = true) :
    ∀ c ∈ Nat.toDigitsCore 10 fuel n ds, c.isDigit = true := by
  induction fuel generalizing n ds with
  | zero => simpa [Nat.toDigitsCore] using hds
  | succ fuel ih =>
    have hcons : ∀ c ∈ Nat.digitChar (n % 10) :: ds, c.isDigit = true := by
      intro c hc
      rcases List.mem_cons.mp hc with h | h
      · rw [h]; exact isDigit_digitChar _ (Nat.mod_lt _ (by omega))
      · exact hds c h
    simp only [Nat.toDigitsCore]
    split
    · exact hcons
    · exact ih _ _ hcons

theorem repr_injective (a b : Nat) (h : Nat.repr a = Nat.repr b) : a = b := by
  have hl : Nat.toDigits 10 a = Nat.toDigits 10 b := by
    have := congrArg String.data h
    simpa [Nat.repr, List.asString] using this
  have ha := digitsValue_toDigitsCore (a + 1) a [] (by omega)
  have hb := digitsValue_toDigitsCore (b + 1) b [] (by omega)
  simp only [Nat.toDigits] at hl
  rw [hl, hb] at ha
  simpa [digitsValue] using ha.symm

theorem repr_ne_undefined (a : Nat) : Nat.repr a ≠ "undefined" := by
  intro h
  have hl : Nat.toDigits 10 a = "undefined".data := by
    have := congrArg String.data h
    simpa [Nat.repr, List.asString] using this
  have hall := all_isDigit_toDigitsCore (a + 1) a [] (by simp)
  simp only [Nat.toDigits] at hl
  rw [hl] at hall
  have := hall 'u' (by decide)
  revert this
  decide

/-- Distinct ids give distinct path segments. -/
theorem pathKey_injective (a b : Option Nat) (h : pathKey a = pathKey b) : a = b := by
  cases a with
  | none =>
    cases b with
    | none => rfl
    | some n => exact absurd h.symm (repr_ne_undefined n)
  | some m =>
    cases b with
    | none => exact absurd h (repr_ne_undefined m)
    | some n => rw [repr_injective m n h]

/-- C23: for every store, user `uid` and product, each of `addToCart`,
`updateQuantity` and `removeFromCart` by that user changes at most the record
stored under the product's key in that user's cart: the record under every
other key of the user's cart is unchanged, and the whole cart of every other
user is unchanged. Every other product id has another key. -/
theorem operations_frame (s : Store) (uid : String) (env : AddEnv) (d : DetailState)
    (item : Item) (newQty : Int) (ok : Bool) (c : CartState) (hu : env.user = some uid) :
    ((∀ key, key ≠ pathKey (some d.product.id) →
          dbGet (addToCart env s d).store uid key = dbGet s uid key)
        ∧ (∀ other, other ≠ uid → (addToCart env s d).store other = s other))
      ∧ ((∀ key, key ≠ pathKey item.id →
          dbGet (updateQuantity (some uid) ok s item newQty c).store uid key = dbGet s uid key)
        ∧ (∀ other, other ≠ uid →
          (updateQuantity (some uid) ok s item newQty c).store other = s other))
      ∧ ((∀ key, key ≠ pathKey item.id →
          dbGet (removeFromCart (some uid) ok s item c).store uid key = dbGet s uid key)
        ∧ (∀ other, other ≠ uid →
          (removeFromCart (some uid) ok s item c).store other = s other))
      ∧ (∀ id id' : Option Nat, id' ≠ id → pathKey id' ≠ pathKey id) := by
  refine ⟨?_, ?_, ?_, fun id id' hne h => hne (pathKey_injective id' id h)⟩
  · rcases addToCart_cases env s d with ⟨hst, -⟩ | ⟨uid', nq, hu', -, -, -, hst, -⟩
    · rw [hst]
      exact ⟨fun _ _ => rfl, fun _ _ => rfl⟩
    · have e : uid' = uid := by rw [hu] at hu'; exact (Option.some.inj hu').symm
      subst e
      rw [hst]
      exact ⟨fun key hk => dbGet_dbSet_other s uid' _ uid' key _ (Or.inr hk),
             fun other ho => dbSet_other_user s uid' _ other _ ho⟩
  · rcases updateQuantity_cases (some uid) ok s item newQty c with
      ⟨hst, -⟩ | ⟨uid', hu', -, -, hst, -⟩
    · rw [hst]
      exact ⟨fun _ _ => rfl, fun _ _ => rfl⟩
    · have e : uid' = uid := (Option.some.inj hu').symm
      subst e
      rw [hst]
      exact ⟨fun key hk => dbGet_dbUpdate_other s uid' _ uid' key _ (Or.inr hk),
             fun other ho => dbUpdate_other_user s uid' _ other _ ho⟩
  · rcases removeFromCart_cases (some uid) ok s item c with ⟨hst, -⟩ | ⟨uid', hu', -, hst, -⟩
    · rw [hst]
      exact ⟨fun _ _ => rfl, fun _ _ => rfl⟩
    · have e : uid' = uid := (Option.some.inj hu').symm
      subst e
      rw [hst]
      exact ⟨fun key hk => dbGet_dbRemove_other s uid' _ uid' key (Or.inr hk),
             fun other ho => dbRemove_other_user s uid' _ other ho⟩

/-- C23 at a concrete input: the cart of user `u` holds product `A` and a
record for product 2; an Add of product `A` leaves the record for product 2
as it was. -/
theorem operations_frame_witness :
    dbGet (addToCart (envOk 200) storeMalformed (detailA 3)).store "u" (pathKey itemNoTitle.id)
      = dbGet storeMalformed "u" (pathKey itemNoTitle.id) :=
  (operations_frame storeMalformed "u" (envOk 200) (detailA 3) (itemA 2) 7 true (cartA 2)
    rfl).1.1 (pathKey itemNoTitle.id) (by decide)

end CartSync
